import Mathlib

/-! # syspack / mmap: a shallow embedding

The Go package `syspack` wraps the operating-system primitives for memory
mappings, and its sub-package `mmap` builds the `Mapping` type on top of
them.  This development embeds both in Lean:

* machine integers are `Nat` (unsigned: `uintptr`, `Size`, `Dword`, `Qword`)
  and `Int` (signed: `int`, `Offset`, `Mode`), with explicit reduction
  modulo `2 ^ 64` or `2 ^ 32` wherever the Go code can wrap;
* a Go `error` is `Option Error`, `none` being the nil error;
* a Go `[]byte` that points into mapped memory is `Option Slice`, `none`
  being the nil slice; a caller-owned buffer is the list of its bytes;
* the address space is `World.mem`, and every invocation of an
  operating-system primitive is appended to the trace `World.calls`;
  the primitives answer through an arbitrary oracle `OS`;
* which regions of the address space are mapped is read off the trace and
  the answers (`OS.regionsAfter`).
-/

namespace Syspack

/-! ## Go values -/

/-- Go `byte`. -/
abbrev Byte := UInt8

/-- Conversion of a signed 64-bit integer to `uintptr` / `uint64`. -/
def toUintptr (x : Int) : Nat := (x % 2 ^ 64).toNat

/-- Conversion of a `uintptr` to `int` / `int64` (two's complement). -/
def toInt (n : Nat) : Int :=
  if n % 2 ^ 64 < 2 ^ 63 then ((n % 2 ^ 64 : Nat) : Int) else ((n % 2 ^ 64 : Nat) : Int) - 2 ^ 64

/-- The errors of the two packages, together with the errors of the Go
standard library that the code returns (`syscall.Errno`, `*os.SyscallError`,
`io.EOF`) and the run-time panic of an integer division by zero. -/
inductive Error where
  | Errno (errno : Nat)
  | SyscallError (name : String) (err : Error)
  | EOF
  | DivideByZero
  | ErrorClosed
  | ErrorInvalidMode (Mode : Int)
  | ErrorInvalidOffset (Offset : Int)
  | ErrorInvalidOffsetRange (Low High : Int)
  | ErrorInvalidSize (Size : Nat)
  | ErrorNotAllowed (Operation : String)
  deriving DecidableEq, Repr

/-- Go slice header of a `[]byte` over mapped memory: the address of its
first byte, its length and its capacity. -/
structure Slice where
  data : Nat
  len : Int
  cap : Int
  deriving DecidableEq, Repr

/-- Go `s[low:]` on a slice header. -/
def Slice.sliceFrom (s : Slice) (low : Int) : Slice :=
  { data := s.data + low.toNat, len := s.len - low, cap := s.cap - low }

/-- Go `s[low:high]` on a slice header. -/
def Slice.slice (s : Slice) (low high : Int) : Slice :=
  { data := s.data + low.toNat, len := high - low, cap := s.cap - low }

/-! ## The operating system -/

/-- One invocation of an operating-system primitive, with its arguments:
the raw Linux system calls `syscall.Syscall` and `syscall.Syscall6`, and the
Windows functions of package `syscall`. -/
inductive Call where
  | Syscall (trap a1 a2 a3 : Nat)
  | Syscall6 (trap a1 a2 a3 a4 a5 a6 : Nat)
  | GetCurrentProcess
  | DuplicateHandle (hSourceProcessHandle hSourceHandle hTargetProcessHandle : Nat)
      (dwDesiredAccess : Nat) (bInheritHandle : Bool) (dwOptions : Nat)
  | CreateFileMapping (hFile flProtect dwMaximumSizeHigh dwMaximumSizeLow : Nat)
  | MapViewOfFile (hFileMappingObject dwDesiredAccess dwFileOffsetHigh dwFileOffsetLow : Nat)
      (dwNumberOfBytesToMap : Nat)
  | UnmapViewOfFile (lpBaseAddress : Nat)
  | CloseHandle (hObject : Nat)
  | FlushViewOfFile (lpBaseAddress dwNumberOfBytesToFlush : Nat)
  | FlushFileBuffers (hFile : Nat)
  | VirtualLock (lpAddress dwSize : Nat)
  | VirtualUnlock (lpAddress dwSize : Nat)
  deriving DecidableEq, Repr

/-- The platform: the page size reported by `os.Getpagesize`, the value of
`syscall.EINVAL`, and the answers of the primitives.  An answer may depend on
every earlier invocation.  A raw system call answers `(r1, errno)`; a Windows
function of package `syscall` answers `(value, err)`. -/
structure OS where
  pageSize : Int
  EINVAL : Nat
  Syscall : List Call → Call → Nat × Nat
  Api : List Call → Call → Nat × Option Error

/-- The state outside the `Mapping` value: the bytes of the address space,
the trace of the primitives invoked so far (oldest first), and whether the
run-time holds a finalizer for the mapping. -/
structure World where
  mem : Nat → Byte
  calls : List Call
  finalizer : Bool

/-- Invoke a raw system call: log it and ask the platform. -/
def World.Syscall (os : OS) (w : World) (c : Call) : World × Nat × Nat :=
  ({ w with calls := w.calls ++ [c] }, os.Syscall w.calls c)

/-- Invoke a Windows function of package `syscall`: log it and ask the platform. -/
def World.Api (os : OS) (w : World) (c : Call) : World × Nat × Option Error :=
  ({ w with calls := w.calls ++ [c] }, os.Api w.calls c)

/-- Go `os.NewSyscallError`: nil for a nil error. -/
def NewSyscallError (name : String) (err : Option Error) : Option Error :=
  match err with
  | none => none
  | some e => some (Error.SyscallError name e)

/-! ## syspack.go -/

/-- `MaxDword = Dword(math.MaxUint32)`. -/
def MaxDword : Nat := 2 ^ 32 - 1

/-- `MaxUint = ^uint(0)`. -/
def MaxUint : Nat := 2 ^ 64 - 1

/-- `MaxInt = int(MaxUint >> 1)`. -/
def MaxInt : Int := toInt (MaxUint >>> 1)

/-- `Errno`: the system call error number. -/
def Errno (os : OS) (err : Option Error) : Option Error :=
  match err with
  | some (Error.Errno errno) => if errno = 0 then some (Error.Errno os.EINVAL) else err
  | some _ => err
  | none => some (Error.Errno os.EINVAL)

/-- `HighLow`: high and low bits. -/
def HighLow (value : Nat) : Nat × Nat :=
  ((value >>> 32) % 2 ^ 32, (value &&& MaxDword) % 2 ^ 32)

/-- `Off`: length of a byte slice as an `Offset`. -/
def Off (value : Option Slice) : Int :=
  match value with
  | none => 0
  | some s => s.len

/-! ## syspack_linux_amd64.go -/

namespace Linux

def SymbolMlock : String := "mlock"
def SymbolMmap : String := "mmap"
def SymbolMsync : String := "msync"
def SymbolMunlock : String := "munlock"
def SymbolMunmap : String := "munmap"

/-! Constants of package `syscall` on linux/amd64. -/
def SYS_MMAP : Nat := 9
def SYS_MUNMAP : Nat := 11
def SYS_MSYNC : Nat := 26
def SYS_MLOCK : Nat := 149
def SYS_MUNLOCK : Nat := 150
def MS_SYNC : Nat := 4
def PROT_READ : Nat := 1
def PROT_WRITE : Nat := 2
def PROT_EXEC : Nat := 4
def MAP_SHARED : Nat := 1
def MAP_PRIVATE : Nat := 2

def Mlock (os : OS) (w : World) (addr length : Nat) : World × Option Error :=
  let r := w.Syscall os (Call.Syscall SYS_MLOCK addr length 0)
  if r.2.2 ≠ 0 then (r.1, Errno os (some (Error.Errno r.2.2)))
  else (r.1, some (Error.Errno r.2.2))

def MlockE (os : OS) (w : World) (addr length : Nat) : World × Option Error :=
  let r := Mlock os w addr length
  (r.1, NewSyscallError SymbolMlock r.2)

def Mmap (os : OS) (w : World) (addr length : Nat) (prot flags : Int) (fd : Nat) (offset : Int) :
    World × Nat × Option Error :=
  if prot < 0 ∨ flags < 0 ∨ offset < 0 then (w, 0, some (Error.Errno os.EINVAL))
  else
    let r := w.Syscall os
      (Call.Syscall6 SYS_MMAP addr length (toUintptr prot) (toUintptr flags) fd (toUintptr offset))
    if r.2.2 ≠ 0 then (r.1, 0, Errno os (some (Error.Errno r.2.2)))
    else (r.1, r.2.1, none)

def MmapE (os : OS) (w : World) (addr length : Nat) (prot flags : Int) (fd : Nat) (offset : Int) :
    World × Nat × Option Error :=
  let r := Mmap os w addr length prot flags fd offset
  if r.2.2 ≠ none then (r.1, r.2.1, NewSyscallError SymbolMmap r.2.2)
  else (r.1, r.2.1, none)

def Msync (os : OS) (w : World) (addr length : Nat) : World × Option Error :=
  let r := w.Syscall os (Call.Syscall SYS_MSYNC addr length MS_SYNC)
  if r.2.2 ≠ 0 then (r.1, Errno os (some (Error.Errno r.2.2)))
  else (r.1, none)

def MsyncE (os : OS) (w : World) (addr length : Nat) : World × Option Error :=
  let r := Msync os w addr length
  (r.1, NewSyscallError SymbolMsync r.2)

def Munlock (os : OS) (w : World) (addr length : Nat) : World × Option Error :=
  let r := w.Syscall os (Call.Syscall SYS_MUNLOCK addr length 0)
  if r.2.2 ≠ 0 then (r.1, Errno os (some (Error.Errno r.2.2)))
  else (r.1, none)

def MunlockE (os : OS) (w : World) (addr length : Nat) : World × Option Error :=
  let r := Munlock os w addr length
  (r.1, NewSyscallError SymbolMunlock r.2)

def Munmap (os : OS) (w : World) (addr length : Nat) : World × Option Error :=
  let r := w.Syscall os (Call.Syscall SYS_MUNMAP addr length 0)
  if r.2.2 ≠ 0 then (r.1, Errno os (some (Error.Errno r.2.2)))
  else (r.1, none)

def MunmapE (os : OS) (w : World) (addr length : Nat) : World × Option Error :=
  let r := Munmap os w addr length
  (r.1, NewSyscallError SymbolMunmap r.2)

end Linux

/-! ## syspack_windows_amd64.go -/

namespace Windows

def SymbolCreateFileMapping : String := "CreateFileMapping"
def SymbolDuplicateHandle : String := "DuplicateHandle"
def SymbolFlushFileBuffers : String := "FlushFileBuffers"
def SymbolFlushViewOfFile : String := "FlushViewOfFile"
def SymbolGetCurrentProcess : String := "GetCurrentProcess"
def SymbolMapViewOfFile : String := "MapViewOfFile"
def SymbolUnmapViewOfFile : String := "UnmapViewOfFile"

/-! Constants of package `syscall` on windows/amd64. -/
def PAGE_READONLY : Nat := 0x02
def PAGE_READWRITE : Nat := 0x04
def PAGE_WRITECOPY : Nat := 0x08
def FILE_MAP_COPY : Nat := 0x01
def FILE_MAP_WRITE : Nat := 0x02
def FILE_MAP_READ : Nat := 0x04
def FILE_MAP_EXECUTE : Nat := 0x20
def DUPLICATE_SAME_ACCESS : Nat := 0x2

def CreateFileMappingE (os : OS) (w : World) (hFile flProtect dwMaximumSizeHigh dwMaximumSizeLow : Nat) :
    World × Nat × Option Error :=
  let r := w.Api os (Call.CreateFileMapping hFile flProtect dwMaximumSizeHigh dwMaximumSizeLow)
  if r.2.2 ≠ none then (r.1, r.2.1, NewSyscallError SymbolCreateFileMapping r.2.2)
  else (r.1, r.2.1, none)

/-- The handle that the system stores through `lpTargetHandle` is the value
of the answer. -/
def DuplicateHandleE (os : OS) (w : World)
    (hSourceProcessHandle hSourceHandle hTargetProcessHandle : Nat)
    (dwDesiredAccess : Nat) (bInheritHandle : Bool) (dwOptions : Nat) :
    World × Nat × Option Error :=
  let r := w.Api os (Call.DuplicateHandle hSourceProcessHandle hSourceHandle hTargetProcessHandle
    dwDesiredAccess bInheritHandle dwOptions)
  (r.1, r.2.1, NewSyscallError SymbolDuplicateHandle r.2.2)

def GetCurrentProcessE (os : OS) (w : World) : World × Nat × Option Error :=
  let r := w.Api os Call.GetCurrentProcess
  if r.2.2 ≠ none then (r.1, r.2.1, NewSyscallError SymbolGetCurrentProcess r.2.2)
  else (r.1, r.2.1, none)

def MapViewOfFileE (os : OS) (w : World)
    (hFileMappingObject dwDesiredAccess dwFileOffsetHigh dwFileOffsetLow : Nat)
    (dwNumberOfBytesToMap : Nat) : World × Nat × Option Error :=
  let r := w.Api os (Call.MapViewOfFile hFileMappingObject dwDesiredAccess dwFileOffsetHigh
    dwFileOffsetLow dwNumberOfBytesToMap)
  if r.2.2 ≠ none then (r.1, r.2.1, NewSyscallError SymbolMapViewOfFile r.2.2)
  else (r.1, r.2.1, none)

def CloseHandle (os : OS) (w : World) (hObject : Nat) : World × Option Error :=
  let r := w.Api os (Call.CloseHandle hObject)
  (r.1, r.2.2)

def FlushFileBuffersE (os : OS) (w : World) (hFile : Nat) : World × Option Error :=
  let r := w.Api os (Call.FlushFileBuffers hFile)
  (r.1, NewSyscallError SymbolFlushFileBuffers r.2.2)

def FlushViewOfFileE (os : OS) (w : World) (lpBaseAddress dwNumberOfBytesToFlush : Nat) :
    World × Option Error :=
  let r := w.Api os (Call.FlushViewOfFile lpBaseAddress dwNumberOfBytesToFlush)
  (r.1, NewSyscallError SymbolFlushViewOfFile r.2.2)

def UnmapViewOfFileE (os : OS) (w : World) (lpBaseAddress : Nat) : World × Option Error :=
  let r := w.Api os (Call.UnmapViewOfFile lpBaseAddress)
  (r.1, NewSyscallError SymbolUnmapViewOfFile r.2.2)

end Windows

/-! ## mmap/mmap.go -/

namespace Mmap

/-! Memory access modes (`Mode` is a Go `int`). -/
def ModeReadOnly : Int := 0
def ModeReadWrite : Int := 1
def ModeReadWritePrivate : Int := 2

/-- Mapping options. -/
structure Options where
  Mode : Int
  Executable : Bool
  deriving DecidableEq, Repr

/-- Memory mapping: the fields that both platforms declare.  `data` is
`none` for the nil slice. -/
structure Mapping where
  alignedAddress : Nat
  alignedSize : Nat
  data : Option Slice
  canWrite : Bool
  canExecute : Bool
  deriving DecidableEq, Repr

/-- The Go zero value `&Mapping{}`. -/
def Mapping.zero : Mapping :=
  { alignedAddress := 0, alignedSize := 0, data := none, canWrite := false, canExecute := false }

/-- Go `len(mapping.data)`. -/
def Mapping.Len (mapping : Mapping) : Int :=
  match mapping.data with
  | none => 0
  | some s => s.len

def Mapping.CanRead (_mapping : Mapping) : Bool := true

def Mapping.CanWrite (mapping : Mapping) : Bool := mapping.canWrite

def Mapping.CanExecute (mapping : Mapping) : Bool := mapping.canExecute

/-- Go builtin `copy(buffer, src)` from mapped memory into a caller buffer:
the new contents of the buffer and the number of bytes copied. -/
def copyOut (mem : Nat → Byte) (buffer : List Byte) (src : Slice) : List Byte × Int :=
  let n : Int := min (buffer.length : Int) src.len
  ((List.range n.toNat).map (fun i => mem (src.data + i)) ++ buffer.drop n.toNat, n)

/-- Go builtin `copy(dst, buffer)` from a caller buffer into mapped memory:
the new memory and the number of bytes copied. -/
def copyIn (mem : Nat → Byte) (dst : Slice) (buffer : List Byte) : (Nat → Byte) × Int :=
  let n : Int := min dst.len (buffer.length : Int)
  (fun a => if dst.data ≤ a ∧ a < dst.data + n.toNat then buffer.getD (a - dst.data) 0 else mem a, n)

/-- Direct byte slice in offset range [low, high). -/
def Mapping.Direct (mapping : Mapping) (low high : Int) : Option Slice × Option Error :=
  match mapping.data with
  | none => (none, some Error.ErrorClosed)
  | some data =>
    let length := Off (some data)
    if low < 0 ∨ low ≥ length then (none, some (Error.ErrorInvalidOffset low))
    else if high < 1 ∨ high > length then (none, some (Error.ErrorInvalidOffset high))
    else if low ≥ high then (none, some (Error.ErrorInvalidOffsetRange low (high - 1)))
    else (some (data.slice low high), none)

/-- Read single byte from mapping at given offset. -/
def Mapping.ReadByteAt (w : World) (mapping : Mapping) (offset : Int) : Byte × Option Error :=
  match mapping.data with
  | none => (0, some Error.ErrorClosed)
  | some data =>
    if offset < 0 ∨ offset ≥ Off (some data) then (0, some (Error.ErrorInvalidOffset offset))
    else (w.mem (data.data + offset.toNat), none)

/-- Write single byte to mapping at given offset. -/
def Mapping.WriteByteAt (w : World) (mapping : Mapping) (byte : Byte) (offset : Int) :
    World × Option Error :=
  match mapping.data with
  | none => (w, some Error.ErrorClosed)
  | some data =>
    if ¬ mapping.canWrite then (w, some (Error.ErrorNotAllowed "write"))
    else if offset < 0 ∨ offset ≥ Off (some data) then (w, some (Error.ErrorInvalidOffset offset))
    else ({ w with mem := fun a => if a = data.data + offset.toNat then byte else w.mem a }, none)

/-- Read len(buffer) bytes from mapping at given offset: the buffer
afterwards, the count and the error. -/
def Mapping.ReadAt (w : World) (mapping : Mapping) (buffer : List Byte) (offset : Int) :
    List Byte × Int × Option Error :=
  match mapping.data with
  | none => (buffer, 0, some Error.ErrorClosed)
  | some data =>
    if offset < 0 ∨ offset ≥ Off (some data) then (buffer, 0, some (Error.ErrorInvalidOffset offset))
    else
      let r := copyOut w.mem buffer (data.sliceFrom offset)
      if r.2 < (buffer.length : Int) then (r.1, r.2, some Error.EOF)
      else (r.1, r.2, none)

/-- Write len(buffer) bytes to mapping at given offset: the world
afterwards, the count and the error. -/
def Mapping.WriteAt (w : World) (mapping : Mapping) (buffer : List Byte) (offset : Int) :
    World × Int × Option Error :=
  match mapping.data with
  | none => (w, 0, some Error.ErrorClosed)
  | some data =>
    if ¬ mapping.canWrite then (w, 0, some (Error.ErrorNotAllowed "write"))
    else if offset < 0 ∨ offset ≥ Off (some data) then (w, 0, some (Error.ErrorInvalidOffset offset))
    else
      let r := copyIn w.mem (data.sliceFrom offset) buffer
      if r.2 < (buffer.length : Int) then ({ w with mem := r.1 }, r.2, some Error.EOF)
      else ({ w with mem := r.1 }, r.2, none)

/-! ### The accessors with the receiver handed back

The methods of `mmap.go` have the pointer receiver `mapping *Mapping`.  In
the definitions below the receiver is passed in and handed back next to the
Go results, branch by branch, so that an assignment to one of its fields
would show in the result.  None of the five accessors makes one. -/

namespace Method

/-- `Direct`, with the receiver afterwards. -/
def Direct (mapping : Mapping) (low high : Int) : Mapping × Option Slice × Option Error :=
  match mapping.data with
  | none => (mapping, none, some Error.ErrorClosed)
  | some data =>
    let length := Off (some data)
    if low < 0 ∨ low ≥ length then (mapping, none, some (Error.ErrorInvalidOffset low))
    else if high < 1 ∨ high > length then (mapping, none, some (Error.ErrorInvalidOffset high))
    else if low ≥ high then (mapping, none, some (Error.ErrorInvalidOffsetRange low (high - 1)))
    else (mapping, some (data.slice low high), none)

/-- `ReadByteAt`, with the receiver afterwards. -/
def ReadByteAt (w : World) (mapping : Mapping) (offset : Int) : Mapping × Byte × Option Error :=
  match mapping.data with
  | none => (mapping, 0, some Error.ErrorClosed)
  | some data =>
    if offset < 0 ∨ offset ≥ Off (some data) then
      (mapping, 0, some (Error.ErrorInvalidOffset offset))
    else (mapping, w.mem (data.data + offset.toNat), none)

/-- `WriteByteAt`, with the world and the receiver afterwards: the store
`mapping.data[offset] = byte` goes to memory, not to a field. -/
def WriteByteAt (w : World) (mapping : Mapping) (byte : Byte) (offset : Int) :
    World × Mapping × Option Error :=
  match mapping.data with
  | none => (w, mapping, some Error.ErrorClosed)
  | some data =>
    if ¬ mapping.canWrite then (w, mapping, some (Error.ErrorNotAllowed "write"))
    else if offset < 0 ∨ offset ≥ Off (some data) then
      (w, mapping, some (Error.ErrorInvalidOffset offset))
    else
      ({ w with mem := fun a => if a = data.data + offset.toNat then byte else w.mem a },
       mapping, none)

/-- `ReadAt`, with the receiver afterwards. -/
def ReadAt (w : World) (mapping : Mapping) (buffer : List Byte) (offset : Int) :
    Mapping × List Byte × Int × Option Error :=
  match mapping.data with
  | none => (mapping, buffer, 0, some Error.ErrorClosed)
  | some data =>
    if offset < 0 ∨ offset ≥ Off (some data) then
      (mapping, buffer, 0, some (Error.ErrorInvalidOffset offset))
    else
      let r := copyOut w.mem buffer (data.sliceFrom offset)
      if r.2 < (buffer.length : Int) then (mapping, r.1, r.2, some Error.EOF)
      else (mapping, r.1, r.2, none)

/-- `WriteAt`, with the world and the receiver afterwards. -/
def WriteAt (w : World) (mapping : Mapping) (buffer : List Byte) (offset : Int) :
    World × Mapping × Int × Option Error :=
  match mapping.data with
  | none => (w, mapping, 0, some Error.ErrorClosed)
  | some data =>
    if ¬ mapping.canWrite then (w, mapping, 0, some (Error.ErrorNotAllowed "write"))
    else if offset < 0 ∨ offset ≥ Off (some data) then
      (w, mapping, 0, some (Error.ErrorInvalidOffset offset))
    else
      let r := copyIn w.mem (data.sliceFrom offset) buffer
      if r.2 < (buffer.length : Int) then ({ w with mem := r.1 }, mapping, r.2, some Error.EOF)
      else ({ w with mem := r.1 }, mapping, r.2, none)

end Method

end Mmap

/-! ## mmap/mmap_linux_amd64.go -/

namespace Mmap.Linux

open Syspack.Linux

/-- The option block of `NewMapping`: the protection, the flags and the two
permission bits, or the error of an invalid mode. -/
def NewMapping.options (options : Option Options) : Except Error (Nat × Nat × Bool × Bool) :=
  match options with
  | none => .ok (PROT_READ, MAP_SHARED, false, false)
  | some o =>
    if o.Mode < ModeReadOnly ∨ o.Mode > ModeReadWritePrivate then
      .error (Error.ErrorInvalidMode o.Mode)
    else
      let protection := if o.Mode > ModeReadOnly then PROT_READ ||| PROT_WRITE else PROT_READ
      let canWrite := if o.Mode > ModeReadOnly then true else false
      let flags := if o.Mode = ModeReadWritePrivate then MAP_PRIVATE else MAP_SHARED
      let protection := if o.Executable then protection ||| PROT_EXEC else protection
      let canExecute := if o.Executable then true else false
      .ok (protection, flags, canWrite, canExecute)

/-- Make new mapping.  The result is the world afterwards, the mapping (or
`none` for nil) and the error.  A page size of zero makes the Go code panic
on the division; that outcome is reported as `Error.DivideByZero`. -/
def NewMapping (os : OS) (w : World) (fd : Nat) (offset : Int) (size : Nat)
    (options : Option Options) : World × Option Mapping × Option Error :=
  if offset < 0 then (w, none, some (Error.ErrorInvalidOffset offset))
  else if size > toUintptr MaxInt then (w, none, some (Error.ErrorInvalidSize size))
  else
    match NewMapping.options options with
    | .error e => (w, none, some e)
    | .ok (protection, flags, canWrite, canExecute) =>
      let pageSize := os.pageSize
      if pageSize < 0 then
        (w, none, NewSyscallError "getpagesize" (some (Error.Errno os.EINVAL)))
      else if pageSize = 0 then (w, none, some Error.DivideByZero)
      else
        let outerOffset := Int.tdiv offset pageSize
        let innerOffset := Int.tmod offset pageSize
        let alignedSize := (toUintptr innerOffset + size) % 2 ^ 64
        let r := MmapE os w 0 alignedSize protection flags fd outerOffset
        if r.2.2 ≠ none then (r.1, none, r.2.2)
        else
          let alignedAddress := r.2.1
          let data : Slice :=
            { data := (alignedAddress + toUintptr innerOffset) % 2 ^ 64
              len := toInt size
              cap := toInt size }
          ({ r.1 with finalizer := true },
           some { alignedAddress := alignedAddress, alignedSize := alignedSize, data := some data,
                  canWrite := canWrite, canExecute := canExecute },
           none)

/-- Lock mapping. -/
def Mapping.Lock (os : OS) (w : World) (mapping : Mapping) : World × Option Error :=
  match mapping.data with
  | none => (w, some Error.ErrorClosed)
  | some _ => MlockE os w mapping.alignedAddress mapping.alignedSize

/-- Unlock mapping. -/
def Mapping.Unlock (os : OS) (w : World) (mapping : Mapping) : World × Option Error :=
  match mapping.data with
  | none => (w, some Error.ErrorClosed)
  | some _ => MunlockE os w mapping.alignedAddress mapping.alignedSize

/-- Sync mapping. -/
def Mapping.Sync (os : OS) (w : World) (mapping : Mapping) : World × Option Error :=
  match mapping.data with
  | none => (w, some Error.ErrorClosed)
  | some _ =>
    if ¬ mapping.canWrite then (w, some (Error.ErrorNotAllowed "sync"))
    else MsyncE os w mapping.alignedAddress mapping.alignedSize

/-- Close mapping: the world and the mapping afterwards, and the error. -/
def Mapping.Close (os : OS) (w : World) (mapping : Mapping) : World × Mapping × Option Error :=
  match mapping.data with
  | none => (w, mapping, some Error.ErrorClosed)
  | some _ =>
    let s := if mapping.canWrite then Mapping.Sync os w mapping else (w, none)
    if s.2 ≠ none then (s.1, mapping, s.2)
    else
      let u := MunmapE os s.1 mapping.alignedAddress mapping.alignedSize
      if u.2 ≠ none then (u.1, mapping, u.2)
      else ({ u.1 with finalizer := false }, { mapping with data := none }, none)

namespace Method

/-- `Lock`, with the world and the receiver afterwards. -/
def Lock (os : OS) (w : World) (mapping : Mapping) : World × Mapping × Option Error :=
  match mapping.data with
  | none => (w, mapping, some Error.ErrorClosed)
  | some _ =>
    let r := MlockE os w mapping.alignedAddress mapping.alignedSize
    (r.1, mapping, r.2)

/-- `Unlock`, with the world and the receiver afterwards. -/
def Unlock (os : OS) (w : World) (mapping : Mapping) : World × Mapping × Option Error :=
  match mapping.data with
  | none => (w, mapping, some Error.ErrorClosed)
  | some _ =>
    let r := MunlockE os w mapping.alignedAddress mapping.alignedSize
    (r.1, mapping, r.2)

/-- `Sync`, with the world and the receiver afterwards. -/
def Sync (os : OS) (w : World) (mapping : Mapping) : World × Mapping × Option Error :=
  match mapping.data with
  | none => (w, mapping, some Error.ErrorClosed)
  | some _ =>
    if ¬ mapping.canWrite then (w, mapping, some (Error.ErrorNotAllowed "sync"))
    else
      let r := MsyncE os w mapping.alignedAddress mapping.alignedSize
      (r.1, mapping, r.2)

/-- `Close`, with the world and the receiver afterwards: the one method that
assigns to a field, `mapping.data = nil`, after the release has succeeded. -/
def Close (os : OS) (w : World) (mapping : Mapping) : World × Mapping × Option Error :=
  match mapping.data with
  | none => (w, mapping, some Error.ErrorClosed)
  | some _ =>
    let s := if mapping.canWrite then Sync os w mapping else (w, mapping, none)
    if s.2.2 ≠ none then (s.1, s.2.1, s.2.2)
    else
      let u := MunmapE os s.1 s.2.1.alignedAddress s.2.1.alignedSize
      if u.2 ≠ none then (u.1, s.2.1, u.2)
      else ({ u.1 with finalizer := false }, { s.2.1 with data := none }, none)

end Method

/-- One call of a method of `Mapping`, with its arguments. -/
inductive Op where
  | Direct (low high : Int)
  | ReadByteAt (offset : Int)
  | WriteByteAt (byte : Byte) (offset : Int)
  | ReadAt (buffer : List Byte) (offset : Int)
  | WriteAt (buffer : List Byte) (offset : Int)
  | Lock
  | Unlock
  | Sync
  | Close

/-- Run one method call on Linux, through the definitions that hand the
receiver back: the world and the mapping afterwards, and the error returned. -/
def Mapping.run (os : OS) (w : World) (mapping : Mapping) : Op → World × Mapping × Option Error
  | .Direct low high =>
    (w, (Mmap.Method.Direct mapping low high).1, (Mmap.Method.Direct mapping low high).2.2)
  | .ReadByteAt offset =>
    (w, (Mmap.Method.ReadByteAt w mapping offset).1, (Mmap.Method.ReadByteAt w mapping offset).2.2)
  | .WriteByteAt byte offset =>
    ((Mmap.Method.WriteByteAt w mapping byte offset).1,
     (Mmap.Method.WriteByteAt w mapping byte offset).2.1,
     (Mmap.Method.WriteByteAt w mapping byte offset).2.2)
  | .ReadAt buffer offset =>
    (w, (Mmap.Method.ReadAt w mapping buffer offset).1,
     (Mmap.Method.ReadAt w mapping buffer offset).2.2.2)
  | .WriteAt buffer offset =>
    ((Mmap.Method.WriteAt w mapping buffer offset).1,
     (Mmap.Method.WriteAt w mapping buffer offset).2.1,
     (Mmap.Method.WriteAt w mapping buffer offset).2.2.2)
  | .Lock => Method.Lock os w mapping
  | .Unlock => Method.Unlock os w mapping
  | .Sync => Method.Sync os w mapping
  | .Close => Method.Close os w mapping

end Mmap.Linux

/-! ## mmap/mmap_windows_amd64.go -/

namespace Mmap.Windows

open Syspack.Windows

/-- Memory mapping on Windows: the common fields and the three handles. -/
structure Mapping extends Mmap.Mapping where
  hProcess : Nat
  hFile : Nat
  hMapping : Nat
  deriving DecidableEq, Repr

/-- The option block of `NewMapping`: the protection, the access and the two
permission bits, or the error of an invalid mode. -/
def NewMapping.options (options : Option Options) : Except Error (Nat × Nat × Bool × Bool) :=
  match options with
  | none => .ok (PAGE_READONLY, FILE_MAP_READ, false, false)
  | some o =>
    let r : Except Error (Nat × Nat × Bool) :=
      if o.Mode = ModeReadOnly then .ok (PAGE_READONLY, FILE_MAP_READ, false)
      else if o.Mode = ModeReadWrite then .ok (PAGE_READWRITE, FILE_MAP_WRITE, true)
      else if o.Mode = ModeReadWritePrivate then .ok (PAGE_WRITECOPY, FILE_MAP_COPY, true)
      else .error (Error.ErrorInvalidMode o.Mode)
    match r with
    | .error e => .error e
    | .ok (protection, access, canWrite) =>
      if o.Executable then
        .ok ((protection <<< 4) % 2 ^ 32, access ||| FILE_MAP_EXECUTE, canWrite, true)
      else .ok (protection, access, canWrite, false)

/-- Make new mapping.  The result is the world afterwards, the mapping (or
`none` for nil) and the error.  A page size of zero makes the Go code panic
on the division; that outcome is reported as `Error.DivideByZero`. -/
def NewMapping (os : OS) (w : World) (fd : Nat) (offset : Int) (size : Nat)
    (options : Option Options) : World × Option Mapping × Option Error :=
  if offset < 0 then (w, none, some (Error.ErrorInvalidOffset offset))
  else if size > toUintptr MaxInt then (w, none, some (Error.ErrorInvalidSize size))
  else
    match NewMapping.options options with
    | .error e => (w, none, some e)
    | .ok (protection, access, canWrite, canExecute) =>
      let p := GetCurrentProcessE os w
      let hProcess := p.2.1
      if p.2.2 ≠ none then (p.1, none, p.2.2)
      else
        let d := DuplicateHandleE os p.1 hProcess fd hProcess 0 true DUPLICATE_SAME_ACCESS
        let hFile := d.2.1
        if d.2.2 ≠ none then (d.1, none, d.2.2)
        else
          let pageSize := os.pageSize
          if pageSize < 0 then
            (d.1, none, NewSyscallError "getpagesize" (some (Error.Errno os.EINVAL)))
          else if pageSize = 0 then (d.1, none, some Error.DivideByZero)
          else
            let outerOffset := Int.tdiv offset pageSize
            let innerOffset := Int.tmod offset pageSize
            let alignedSize := (toUintptr innerOffset + size) % 2 ^ 64
            let maxSize := HighLow ((toUintptr outerOffset + alignedSize) % 2 ^ 64)
            let c := CreateFileMappingE os d.1 hFile protection maxSize.1 maxSize.2
            let hMapping := c.2.1
            if c.2.2 ≠ none then (c.1, none, c.2.2)
            else
              let off := HighLow (toUintptr outerOffset)
              let v := MapViewOfFileE os c.1 hMapping access off.1 off.2 alignedSize
              let alignedAddress := v.2.1
              if v.2.2 ≠ none then (v.1, none, v.2.2)
              else
                let data : Slice :=
                  { data := (alignedAddress + toUintptr innerOffset) % 2 ^ 64
                    len := toInt size
                    cap := toInt size }
                ({ v.1 with finalizer := true },
                 some { alignedAddress := alignedAddress, alignedSize := alignedSize,
                        data := some data, canWrite := canWrite, canExecute := canExecute,
                        hProcess := hProcess, hFile := hFile, hMapping := hMapping },
                 none)

/-- Sync mapping. -/
def Mapping.Sync (os : OS) (w : World) (mapping : Mapping) : World × Option Error :=
  match mapping.data with
  | none => (w, some Error.ErrorClosed)
  | some _ =>
    if ¬ mapping.canWrite then (w, some (Error.ErrorNotAllowed "sync"))
    else
      let v := FlushViewOfFileE os w mapping.alignedAddress mapping.alignedSize
      if v.2 ≠ none then (v.1, v.2)
      else
        let f := FlushFileBuffersE os v.1 mapping.hFile
        if f.2 ≠ none then (f.1, f.2)
        else (f.1, none)

/-- Close mapping: the world and the mapping afterwards, and the error. -/
def Mapping.Close (os : OS) (w : World) (mapping : Mapping) : World × Mapping × Option Error :=
  match mapping.data with
  | none => (w, mapping, some Error.ErrorClosed)
  | some _ =>
    let s := if mapping.canWrite then Mapping.Sync os w mapping else (w, none)
    if s.2 ≠ none then (s.1, mapping, s.2)
    else
      let u := UnmapViewOfFileE os s.1 mapping.alignedAddress
      if u.2 ≠ none then (u.1, mapping, u.2)
      else
        let c := CloseHandle os u.1 mapping.hMapping
        if c.2 ≠ none then (c.1, mapping, c.2)
        else
          let f := CloseHandle os c.1 mapping.hFile
          if f.2 ≠ none then (f.1, mapping, f.2)
          else ({ f.1 with finalizer := false }, { mapping with data := none }, none)

end Mmap.Windows

/-! ## Mapped regions, read off the trace

The answers of the platform say which regions of the address space are
mapped: a successful `mmap` or `MapViewOfFile` maps the region at the address
it answers, a successful `munmap` or `UnmapViewOfFile` releases the region at
the address it is given, and no other primitive changes the regions.  As an
answer depends only on the earlier invocations, the regions after a trace are
recovered by replaying it. -/

/-- The mapped regions after one invocation, given the answers `sys` (of a raw
system call) and `api` (of a Windows function) and the regions before: each
region is a base address and a length. -/
def Call.effect (c : Call) (sys : Nat × Nat) (api : Nat × Option Error)
    (regions : List (Nat × Nat)) : List (Nat × Nat) :=
  match c with
  | Call.Syscall6 trap _ length _ _ _ _ =>
    if trap = Linux.SYS_MMAP ∧ sys.2 = 0 then (sys.1, length) :: regions else regions
  | Call.Syscall trap addr _ _ =>
    if trap = Linux.SYS_MUNMAP ∧ sys.2 = 0 then regions.filter (fun r => r.1 ≠ addr) else regions
  | Call.MapViewOfFile _ _ _ _ dwNumberOfBytesToMap =>
    if api.2 = none then (api.1, dwNumberOfBytesToMap) :: regions else regions
  | Call.UnmapViewOfFile lpBaseAddress =>
    if api.2 = none then regions.filter (fun r => r.1 ≠ lpBaseAddress) else regions
  | _ => regions

/-- The mapped regions after the invocations `trace`, made in this order after
the invocations `past`, starting from `regions`. -/
def OS.regionsAfter (os : OS) (regions : List (Nat × Nat)) (past : List Call) :
    List Call → List (Nat × Nat)
  | [] => regions
  | c :: rest =>
    os.regionsAfter (Call.effect c (os.Syscall past c) (os.Api past c) regions) (past ++ [c]) rest

/-- Whether the byte at address `a` lies in one of the mapped regions. -/
def mapped (regions : List (Nat × Nat)) (a : Nat) : Bool :=
  regions.any (fun r => decide (r.1 ≤ a ∧ a < r.1 + r.2))

/-! ## Concrete platforms and mappings used to exercise the theorems -/

namespace Example

open Mmap

/-- A platform with 4096-byte pages on which every primitive succeeds and
answers the value `0x10000`. -/
def os : OS :=
  { pageSize := 4096, EINVAL := 22, Syscall := fun _ _ => (0x10000, 0),
    Api := fun _ _ => (0x10000, none) }

/-- An initial world: zeroed memory, no primitive invoked yet. -/
def world : World := { mem := fun _ => 0, calls := [], finalizer := false }

/-- An open writable mapping of four bytes at address `0x10010`. -/
def writable : Mapping :=
  { alignedAddress := 0x10000, alignedSize := 20, data := some { data := 0x10010, len := 4, cap := 4 },
    canWrite := true, canExecute := false }

/-- An open read-only mapping of four bytes at address `0x10010`. -/
def readOnly : Mapping := { writable with canWrite := false }


/-- An open writable Windows mapping of four bytes at address `0x10010`, with
the process handle 1, the duplicated file handle 2 and the mapping object 3. -/
def windows : Windows.Mapping :=
  { writable with hProcess := 1, hFile := 2, hMapping := 3 }

/-- A Windows platform on which `CloseHandle` fails with error 6 and every
other function succeeds. -/
def osCloseHandleFails : OS :=
  { pageSize := 4096, EINVAL := 22, Syscall := fun _ _ => (0x10000, 0),
    Api := fun _ c =>
      match c with
      | Call.CloseHandle _ => (0, some (Error.Errno 6))
      | _ => (0x10000, none) }

/-- A Windows platform on which `MapViewOfFile` fails with error 8 and every
other function succeeds: `GetCurrentProcess` answers the handle 1,
`DuplicateHandle` the handle 2 and `CreateFileMapping` the handle 3. -/
def osMapViewFails : OS :=
  { pageSize := 4096, EINVAL := 22, Syscall := fun _ _ => (0x10000, 0),
    Api := fun _ c =>
      match c with
      | Call.MapViewOfFile _ _ _ _ _ => (0, some (Error.Errno 8))
      | Call.GetCurrentProcess => (1, none)
      | Call.DuplicateHandle _ _ _ _ _ _ => (2, none)
      | Call.CreateFileMapping _ _ _ _ => (3, none)
      | _ => (0, none) }

/-- A Linux platform whose `mmap` succeeds, answering the address `0x10000`,
when the length is not zero and the file offset is a multiple of the page
size, and fails with `EINVAL` (22) otherwise; every other system call
succeeds. -/
def osLinux : OS :=
  { pageSize := 4096, EINVAL := 22,
    Syscall := fun _ c =>
      match c with
      | Call.Syscall6 9 _ length _ _ _ offset =>
        if length ≠ 0 ∧ offset % 4096 = 0 then (0x10000, 0) else (2 ^ 64 - 1, 22)
      | _ => (0, 0),
    Api := fun _ _ => (0, some (Error.Errno 22)) }

/-- A Linux platform on which every system call fails with `ENOMEM` (12). -/
def osFails : OS :=
  { pageSize := 4096, EINVAL := 22, Syscall := fun _ _ => (0, 12),
    Api := fun _ _ => (0, some (Error.Errno 12)) }

end Example

/-! ## Theorems -/

namespace Mmap

open Syspack.Linux

/-- C1 (the code departs from the claim): with 4096-byte pages and the
requested offset 4096, `NewMapping` on Linux passes the file offset 1 to
`mmap` and on Windows the file offset (0, 1) to `MapViewOfFile`, and the view
starts at the mapped base itself (displacement 0); so the file offset passed
plus the displacement is 1, not the requested 4096, and byte 0 of the view is
byte 1 of the backing store. -/
theorem NewMapping_offset_4096 :
    (Linux.NewMapping Example.os Example.world 3 4096 1 none).1.calls
        = [Call.Syscall6 SYS_MMAP 0 1 PROT_READ MAP_SHARED 3 1] ∧
      ((Linux.NewMapping Example.os Example.world 3 4096 1 none).2.1.map
          fun m => (m.alignedAddress, m.data)) =
        some (0x10000, some { data := 0x10000, len := 1, cap := 1 }) ∧
      (Windows.NewMapping Example.os Example.world 3 4096 1 none).1.calls.getLast?
        = some (Call.MapViewOfFile 0x10000 Syspack.Windows.FILE_MAP_READ 0 1 1) ∧
      ((Windows.NewMapping Example.os Example.world 3 4096 1 none).2.1.map
          fun m => (m.alignedAddress, m.data)) =
        some (0x10000, some { data := 0x10000, len := 1, cap := 1 }) := by
  refine ⟨by decide, by decide, by decide, by decide⟩

/-- C2: once `Close` has returned no error, every operation on the mapping it
leaves behind returns `ErrorClosed`, in every later world, for every argument
and whatever the permission flags are; the world (memory and trace of
primitives) and the mapping are left as they were. -/
theorem closed_after_Close (os : OS) (w : World) (m : Mapping)
    (h : (Linux.Mapping.Close os w m).2.2 = none) :
    ∀ (os2 : OS) (w2 : World) (offset low high : Int) (b : Byte) (buffer : List Byte),
      (Linux.Mapping.Close os w m).2.1.ReadByteAt w2 offset = (0, some Error.ErrorClosed) ∧
      (Linux.Mapping.Close os w m).2.1.WriteByteAt w2 b offset = (w2, some Error.ErrorClosed) ∧
      (Linux.Mapping.Close os w m).2.1.ReadAt w2 buffer offset
        = (buffer, 0, some Error.ErrorClosed) ∧
      (Linux.Mapping.Close os w m).2.1.WriteAt w2 buffer offset = (w2, 0, some Error.ErrorClosed) ∧
      (Linux.Mapping.Close os w m).2.1.Direct low high = (none, some Error.ErrorClosed) ∧
      Linux.Mapping.Lock os2 w2 (Linux.Mapping.Close os w m).2.1 = (w2, some Error.ErrorClosed) ∧
      Linux.Mapping.Unlock os2 w2 (Linux.Mapping.Close os w m).2.1
        = (w2, some Error.ErrorClosed) ∧
      Linux.Mapping.Sync os2 w2 (Linux.Mapping.Close os w m).2.1 = (w2, some Error.ErrorClosed) ∧
      Linux.Mapping.Close os2 w2 (Linux.Mapping.Close os w m).2.1
        = (w2, (Linux.Mapping.Close os w m).2.1, some Error.ErrorClosed) := by
  have hd : (Linux.Mapping.Close os w m).2.1.data = none := by
    unfold Linux.Mapping.Close at h ⊢
    cases hdata : m.data with
    | none => simp [hdata]
    | some d =>
      simp only [hdata] at h ⊢
      split_ifs at h ⊢ <;> simp_all
  intro os2 w2 offset low high b buffer
  generalize (Linux.Mapping.Close os w m).2.1 = m1 at hd ⊢
  simp [Mapping.ReadByteAt, Mapping.WriteByteAt, Mapping.ReadAt, Mapping.WriteAt, Mapping.Direct,
    Linux.Mapping.Lock, Linux.Mapping.Unlock, Linux.Mapping.Sync, Linux.Mapping.Close, hd]

/-- C2 at a concrete input: closing the open writable example mapping on the
example platform succeeds, and a write through the closed mapping then
reports `ErrorClosed`. -/
theorem closed_after_Close_witness :
    (Linux.Mapping.Close Example.os Example.world Example.writable).2.2 = none ∧
      (Linux.Mapping.Close Example.os Example.world Example.writable).2.1.WriteByteAt
          Example.world 7 0 = (Example.world, some Error.ErrorClosed) :=
  ⟨by decide,
   (closed_after_Close Example.os Example.world Example.writable (by decide)
      Example.os Example.world 0 0 1 7 []).2.1⟩

theorem MaxInt_eq : MaxInt = 2 ^ 63 - 1 := by decide

theorem size_gt_MaxInt_iff (size : Nat) : size > toUintptr MaxInt ↔ (size : Int) > MaxInt := by
  rw [MaxInt_eq]
  have h : toUintptr (2 ^ 63 - 1) = 2 ^ 63 - 1 := by decide
  rw [h]
  omega

theorem toInt_of_le_MaxInt (size : Nat) (h : (size : Int) ≤ MaxInt) : toInt size = size := by
  rw [MaxInt_eq] at h
  have h1 : size < 2 ^ 63 := by omega
  have h2 : size % 2 ^ 64 = size := Nat.mod_eq_of_lt (by omega)
  rw [toInt, h2, if_pos h1]

theorem options_ok_linux (options : Option Options)
    (hopt : ∀ o, options = some o → ModeReadOnly ≤ o.Mode ∧ o.Mode ≤ ModeReadWritePrivate) :
    ∃ r, Linux.NewMapping.options options = .ok r := by
  cases options with
  | none => exact ⟨_, rfl⟩
  | some o =>
    obtain ⟨h1, h2⟩ := hopt o rfl
    have : ¬ (o.Mode < ModeReadOnly ∨ o.Mode > ModeReadWritePrivate) := by omega
    simp only [Linux.NewMapping.options, this, if_false]
    exact ⟨_, rfl⟩

theorem MmapE_ok (os : OS) (w : World) (addr length : Nat) (prot flags : Nat) (fd : Nat)
    (offset : Int) (hoff : 0 ≤ offset)
    (h : (os.Syscall w.calls (Call.Syscall6 SYS_MMAP addr length (toUintptr prot) (toUintptr flags)
      fd (toUintptr offset))).2 = 0) :
    (MmapE os w addr length prot flags fd offset).2.2 = none := by
  have hg : ¬ ((prot : Int) < 0 ∨ (flags : Int) < 0 ∨ offset < 0) := by omega
  simp [MmapE, Mmap, hg, World.Syscall, h]

/-- What `NewMapping` on Linux returns when it returns a mapping: the
permission bits come from the option block, and the view is the slice header
built from the mapped address, the inner offset and the requested size. -/
theorem NewMapping_some_linux (os : OS) (w : World) (fd : Nat) (offset : Int) (size : Nat)
    (options : Option Options) (m : Mapping)
    (h : (Linux.NewMapping os w fd offset size options).2.1 = some m) :
    (∃ protection flags, Linux.NewMapping.options options
        = .ok (protection, flags, m.canWrite, m.canExecute)) ∧
      m.data = some { data := (m.alignedAddress + toUintptr (Int.tmod offset os.pageSize)) % 2 ^ 64
                      len := toInt size, cap := toInt size } ∧
      m.alignedSize = (toUintptr (Int.tmod offset os.pageSize) + size) % 2 ^ 64 := by
  unfold Linux.NewMapping at h
  by_cases h1 : offset < 0
  · simp [h1] at h
  by_cases h2 : size > toUintptr MaxInt
  · simp [h1, h2] at h
  simp only [h1, h2, if_false] at h
  cases hr : Linux.NewMapping.options options with
  | error e => simp [hr] at h
  | ok r =>
    obtain ⟨protection, flags, canWrite, canExecute⟩ := r
    simp only [hr] at h
    by_cases h3 : os.pageSize < 0
    · simp [h3] at h
    by_cases h4 : os.pageSize = 0
    · simp [h4] at h
    simp only [h3, h4, if_false] at h
    split_ifs at h with h5
    simp only [Option.some.injEq] at h
    subst h
    exact ⟨⟨_, _, rfl⟩, rfl, rfl⟩

/-- A `NewMapping` on Linux that returns no error returns a mapping. -/
theorem NewMapping_no_error_linux (os : OS) (w : World) (fd : Nat) (offset : Int) (size : Nat)
    (options : Option Options)
    (h : (Linux.NewMapping os w fd offset size options).2.2 = none) :
    ∃ m, (Linux.NewMapping os w fd offset size options).2.1 = some m := by
  unfold Linux.NewMapping at h ⊢
  by_cases h1 : offset < 0
  · simp [h1] at h
  by_cases h2 : size > toUintptr MaxInt
  · simp [h1, h2] at h
  simp only [h1, h2, if_false] at h ⊢
  cases hr : Linux.NewMapping.options options with
  | error e => simp [hr] at h
  | ok r =>
    obtain ⟨protection, flags, canWrite, canExecute⟩ := r
    simp only [hr] at h ⊢
    by_cases h3 : os.pageSize < 0
    · simp [h3, NewSyscallError] at h
    by_cases h4 : os.pageSize = 0
    · simp [h4] at h
    simp only [h3, h4, if_false] at h ⊢
    split_ifs at h ⊢ with h5
    · exact absurd h h5
    · exact ⟨_, rfl⟩

/-- C3: for an offset that is not negative and a size of at most `MaxInt`,
on a platform with a positive page size: when the options are valid (the
option block accepts them and gives the protection and the flags) and the
`mmap` call that `NewMapping` makes with them succeeds, `NewMapping` returns
a mapping and no error, and `Len()` of that mapping is exactly `size`; and
whenever `NewMapping` returns no error, it returns a mapping whose `Len()` is
exactly `size`. -/
theorem NewMapping_Len (os : OS) (w : World) (fd : Nat) (offset : Int) (size : Nat)
    (options : Option Options) (hoff : 0 ≤ offset) (hsize : (size : Int) ≤ MaxInt)
    (hpage : 0 < os.pageSize) :
    (∀ protection flags canWrite canExecute,
      Linux.NewMapping.options options = .ok (protection, flags, canWrite, canExecute) →
      (os.Syscall w.calls (Call.Syscall6 SYS_MMAP 0
        ((toUintptr (Int.tmod offset os.pageSize) + size) % 2 ^ 64)
        (toUintptr protection) (toUintptr flags) fd
        (toUintptr (Int.tdiv offset os.pageSize)))).2 = 0 →
      ∃ m, (Linux.NewMapping os w fd offset size options).2.1 = some m ∧
        (Linux.NewMapping os w fd offset size options).2.2 = none ∧ m.Len = size) ∧
    ((Linux.NewMapping os w fd offset size options).2.2 = none →
      ∃ m, (Linux.NewMapping os w fd offset size options).2.1 = some m ∧ m.Len = size) := by
  have hlen : ∀ m, (Linux.NewMapping os w fd offset size options).2.1 = some m →
      m.Len = size := by
    intro m hm
    obtain ⟨-, hdata, -⟩ := NewMapping_some_linux os w fd offset size options m hm
    simp [Mapping.Len, hdata, toInt_of_le_MaxInt size hsize]
  constructor
  · intro protection flags canWrite canExecute hr hmmap
    have h1 : ¬ offset < 0 := by omega
    have h2 : ¬ size > toUintptr MaxInt := by rw [size_gt_MaxInt_iff]; omega
    have h3 : ¬ os.pageSize < 0 := by omega
    have h4 : ¬ os.pageSize = 0 := by omega
    have h5 := MmapE_ok os w 0 ((toUintptr (Int.tmod offset os.pageSize) + size) % 2 ^ 64)
      protection flags fd (Int.tdiv offset os.pageSize) (Int.tdiv_nonneg hoff (le_of_lt hpage))
      hmmap
    have herr : (Linux.NewMapping os w fd offset size options).2.2 = none := by
      simp only [Linux.NewMapping, h1, h2, h3, h4, hr, if_false, h5, ne_eq, not_true_eq_false]
    obtain ⟨m, hm⟩ := NewMapping_no_error_linux os w fd offset size options herr
    exact ⟨m, hm, herr, hlen m hm⟩
  · intro herr
    obtain ⟨m, hm⟩ := NewMapping_no_error_linux os w fd offset size options herr
    exact ⟨m, hm, hlen m hm⟩

/-- C3 at a concrete input: on the platform whose `mmap` wants a page-aligned
file offset, ten bytes requested at offset 904 with nil options make the call
`mmap(0, 914, PROT_READ, MAP_SHARED, 3, 0)`, which succeeds, and the mapping
returned has length ten. -/
theorem NewMapping_Len_witness :
    (Example.osLinux.Syscall Example.world.calls (Call.Syscall6 SYS_MMAP 0
        ((toUintptr (Int.tmod 904 Example.osLinux.pageSize) + 10) % 2 ^ 64)
        (toUintptr PROT_READ) (toUintptr MAP_SHARED) 3
        (toUintptr (Int.tdiv 904 Example.osLinux.pageSize)))).2 = 0 ∧
      ∃ m, (Linux.NewMapping Example.osLinux Example.world 3 904 10 none).2.1 = some m ∧
        (Linux.NewMapping Example.osLinux Example.world 3 904 10 none).2.2 = none ∧
        m.Len = ((10 : Nat) : Int) :=
  ⟨by decide,
   (NewMapping_Len Example.osLinux Example.world 3 904 10 none (by decide) (by decide)
      (by decide)).1 PROT_READ MAP_SHARED false false rfl (by decide)⟩

/-- C4: on an open writable mapping, writing byte `b` at an in-bounds offset
returns no error, reading that offset back returns `b` with no error, and
reading any other in-bounds offset returns what it returned before. -/
theorem WriteByteAt_ReadByteAt (w : World) (m : Mapping) (b : Byte) (offset : Int)
    (hopen : m.data ≠ none) (hw : m.CanWrite = true) (h0 : 0 ≤ offset) (h1 : offset < m.Len) :
    (m.WriteByteAt w b offset).2 = none ∧
      m.ReadByteAt (m.WriteByteAt w b offset).1 offset = (b, none) ∧
      ∀ other : Int, 0 ≤ other → other < m.Len → other ≠ offset →
        m.ReadByteAt (m.WriteByteAt w b offset).1 other = m.ReadByteAt w other := by
  cases hd : m.data with
  | none => exact absurd hd hopen
  | some d =>
    have hw2 : m.canWrite = true := hw
    have hlen : m.Len = d.len := by simp [Mapping.Len, hd]
    rw [hlen] at h1
    have hg : ¬ (offset < 0 ∨ offset ≥ d.len) := by omega
    refine ⟨?_, ?_, ?_⟩
    · simp [Mapping.WriteByteAt, hd, hw2, Off, hg]
    · simp [Mapping.WriteByteAt, Mapping.ReadByteAt, hd, hw2, Off, hg]
    · intro other ho0 ho1 hne
      rw [hlen] at ho1
      have hg2 : ¬ (other < 0 ∨ other ≥ d.len) := by omega
      have hne2 : ¬ other.toNat = offset.toNat := by omega
      simp [Mapping.WriteByteAt, Mapping.ReadByteAt, hd, hw2, Off, hg, hg2, hne2]

/-- C4 at a concrete input: writing 7 at offset 2 of the four-byte writable
example mapping. -/
theorem WriteByteAt_ReadByteAt_witness :
    (Example.writable.WriteByteAt Example.world 7 2).2 = none ∧
      Example.writable.ReadByteAt (Example.writable.WriteByteAt Example.world 7 2).1 2
        = (7, none) ∧
      ∀ other : Int, 0 ≤ other → other < Example.writable.Len → other ≠ 2 →
        Example.writable.ReadByteAt (Example.writable.WriteByteAt Example.world 7 2).1 other
          = Example.writable.ReadByteAt Example.world other :=
  WriteByteAt_ReadByteAt Example.world Example.writable 7 2 (by decide) (by decide) (by decide)
    (by decide)

/-- C5, as stated, fails: on the open read-only example mapping of length 4,
`WriteByteAt` at offset 4 (which is `Len()`) reports `ErrorNotAllowed`, not
`ErrorInvalidOffset`. -/
theorem WriteByteAt_readOnly_out_of_bounds :
    Example.readOnly.data ≠ none ∧ Example.readOnly.Len ≤ 4 ∧
      (Example.readOnly.WriteByteAt Example.world 7 4).2
        = some (Error.ErrorNotAllowed "write") ∧
      (Example.readOnly.WriteByteAt Example.world 7 4).2 ≠ some (Error.ErrorInvalidOffset 4) := by
  refine ⟨by decide, by decide, by decide, by decide⟩

/-- C5, amended: on an open mapping and for an offset of at least `Len()`,
`ReadByteAt` fails with `ErrorInvalidOffset` carrying that offset; so does
`WriteByteAt` when the mapping is writable, while on a mapping that is not
writable `WriteByteAt` fails with `ErrorNotAllowed`; memory is unchanged. -/
theorem ByteAt_out_of_bounds (w : World) (m : Mapping) (b : Byte) (offset : Int)
    (hopen : m.data ≠ none) (h : m.Len ≤ offset) :
    m.ReadByteAt w offset = (0, some (Error.ErrorInvalidOffset offset)) ∧
      (m.CanWrite = true →
        m.WriteByteAt w b offset = (w, some (Error.ErrorInvalidOffset offset))) ∧
      (m.CanWrite = false →
        m.WriteByteAt w b offset = (w, some (Error.ErrorNotAllowed "write"))) := by
  cases hd : m.data with
  | none => exact absurd hd hopen
  | some d =>
    have hlen : m.Len = d.len := by simp [Mapping.Len, hd]
    rw [hlen] at h
    have hg : offset < 0 ∨ offset ≥ d.len := by omega
    refine ⟨?_, ?_, ?_⟩
    · simp [Mapping.ReadByteAt, hd, Off, hg]
    · intro hw
      have hw2 : m.canWrite = true := hw
      simp [Mapping.WriteByteAt, hd, hw2, Off, hg]
    · intro hw
      have hw2 : m.canWrite = false := hw
      simp [Mapping.WriteByteAt, hd, hw2]

/-- C5 amended, at a concrete input: offset 9 on the four-byte writable
example mapping. -/
theorem ByteAt_out_of_bounds_witness :
    Example.writable.ReadByteAt Example.world 9 = (0, some (Error.ErrorInvalidOffset 9)) ∧
      (Example.writable.CanWrite = true →
        Example.writable.WriteByteAt Example.world 7 9
          = (Example.world, some (Error.ErrorInvalidOffset 9))) ∧
      (Example.writable.CanWrite = false →
        Example.writable.WriteByteAt Example.world 7 9
          = (Example.world, some (Error.ErrorNotAllowed "write"))) :=
  ByteAt_out_of_bounds Example.world Example.writable 7 9 (by decide) (by decide)

/-- C6: a mapping that `NewMapping` returned for `ModeReadOnly` or for nil
options is open and has `CanWrite()` false; `WriteAt`, `WriteByteAt` and
`Sync` on it return `ErrorNotAllowed` for every argument and leave the world
as it was, so no byte changes and no flush primitive is invoked. -/
theorem readOnly_NotAllowed (os : OS) (w : World) (fd : Nat) (offset : Int) (size : Nat)
    (options : Option Options) (m : Mapping)
    (hmode : options = none ∨ ∃ o, options = some o ∧ o.Mode = ModeReadOnly)
    (hnew : (Linux.NewMapping os w fd offset size options).2.1 = some m) :
    m.data ≠ none ∧ m.CanWrite = false ∧
      ∀ (os2 : OS) (w2 : World) (b : Byte) (buffer : List Byte) (off : Int),
        m.WriteAt w2 buffer off = (w2, 0, some (Error.ErrorNotAllowed "write")) ∧
        m.WriteByteAt w2 b off = (w2, some (Error.ErrorNotAllowed "write")) ∧
        Linux.Mapping.Sync os2 w2 m = (w2, some (Error.ErrorNotAllowed "sync")) := by
  obtain ⟨⟨protection, flags, hopt⟩, hdata, -⟩ :=
    NewMapping_some_linux os w fd offset size options m hnew
  have hcw : m.canWrite = false := by
    rcases hmode with rfl | ⟨o, rfl, ho⟩
    · simp [Linux.NewMapping.options] at hopt
      exact hopt.2.2.1
    · simp [Linux.NewMapping.options, ho, ModeReadOnly, ModeReadWritePrivate] at hopt
      exact hopt.2.2.1
  refine ⟨by simp [hdata], hcw, ?_⟩
  intro os2 w2 b buffer off
  simp [Mapping.WriteAt, Mapping.WriteByteAt, Linux.Mapping.Sync, hdata, hcw]

/-- C6 at a concrete input: the mapping opened with nil options at offset 5000
on the example platform. -/
theorem readOnly_NotAllowed_witness :
    (Linux.NewMapping Example.os Example.world 3 5000 10 none).2.1
        = some { alignedAddress := 0x10000, alignedSize := 914,
                 data := some { data := 0x10388, len := 10, cap := 10 },
                 canWrite := false, canExecute := false } ∧
      Linux.Mapping.Sync Example.os Example.world
          { alignedAddress := 0x10000, alignedSize := 914,
            data := some { data := 0x10388, len := 10, cap := 10 },
            canWrite := false, canExecute := false }
        = (Example.world, some (Error.ErrorNotAllowed "sync")) :=
  ⟨by decide,
   ((readOnly_NotAllowed Example.os Example.world 3 5000 10 none _ (Or.inl rfl)
      (by decide)).2.2 Example.os Example.world 0 [] 0).2.2⟩

/-- C7: on an open mapping and for an in-bounds offset, `ReadAt` returns the
count `min(len(buffer), Len() - offset)`, with `io.EOF` exactly when the
buffer is longer than `Len() - offset` and with the nil error otherwise; on
a writable mapping the same holds for `WriteAt`. -/
theorem ReadAt_WriteAt_count (w : World) (m : Mapping) (buffer : List Byte) (offset : Int)
    (hopen : m.data ≠ none) (h0 : 0 ≤ offset) (h1 : offset < m.Len) :
    ((m.ReadAt w buffer offset).2.1 = min (buffer.length : Int) (m.Len - offset) ∧
      ((m.ReadAt w buffer offset).2.2 = some Error.EOF ↔ (buffer.length : Int) > m.Len - offset) ∧
      (¬ (buffer.length : Int) > m.Len - offset → (m.ReadAt w buffer offset).2.2 = none)) ∧
    (m.CanWrite = true →
      (m.WriteAt w buffer offset).2.1 = min (buffer.length : Int) (m.Len - offset) ∧
      ((m.WriteAt w buffer offset).2.2 = some Error.EOF ↔ (buffer.length : Int) > m.Len - offset) ∧
      (¬ (buffer.length : Int) > m.Len - offset → (m.WriteAt w buffer offset).2.2 = none)) := by
  cases hd : m.data with
  | none => exact absurd hd hopen
  | some d =>
    have hlen : m.Len = d.len := by simp [Mapping.Len, hd]
    rw [hlen] at h1 ⊢
    have hg : ¬ (offset < 0 ∨ offset ≥ d.len) := by omega
    refine ⟨?_, ?_⟩
    · simp only [Mapping.ReadAt, hd, Off, hg, if_false, copyOut, Slice.sliceFrom]
      by_cases hb : (buffer.length : Int) > d.len - offset
      · have hlt : min (buffer.length : Int) (d.len - offset) < (buffer.length : Int) := by omega
        simp [hlt, hb]
      · have hlt : ¬ min (buffer.length : Int) (d.len - offset) < (buffer.length : Int) := by omega
        simp [hlt, hb]
    · intro hw
      have hw2 : m.canWrite = true := hw
      simp only [Mapping.WriteAt, hd, hw2, Off, hg, if_false, copyIn, Slice.sliceFrom,
        not_true_eq_false]
      by_cases hb : (buffer.length : Int) > d.len - offset
      · have hlt : min (d.len - offset) (buffer.length : Int) < (buffer.length : Int) := by omega
        simp [hlt, hb]
        omega
      · have hlt : ¬ min (d.len - offset) (buffer.length : Int) < (buffer.length : Int) := by omega
        simp [hlt, hb]
        omega

/-- C7 at a concrete input: a three-byte buffer at offset 2 of the four-byte
writable example mapping. -/
theorem ReadAt_WriteAt_count_witness :
    ((Example.writable.ReadAt Example.world [1, 2, 3] 2).2.1
        = min (([1, 2, 3] : List Byte).length : Int) (Example.writable.Len - 2) ∧
      ((Example.writable.ReadAt Example.world [1, 2, 3] 2).2.2 = some Error.EOF ↔
        (([1, 2, 3] : List Byte).length : Int) > Example.writable.Len - 2) ∧
      (¬ (([1, 2, 3] : List Byte).length : Int) > Example.writable.Len - 2 →
        (Example.writable.ReadAt Example.world [1, 2, 3] 2).2.2 = none)) ∧
    (Example.writable.CanWrite = true →
      (Example.writable.WriteAt Example.world [1, 2, 3] 2).2.1
        = min (([1, 2, 3] : List Byte).length : Int) (Example.writable.Len - 2) ∧
      ((Example.writable.WriteAt Example.world [1, 2, 3] 2).2.2 = some Error.EOF ↔
        (([1, 2, 3] : List Byte).length : Int) > Example.writable.Len - 2) ∧
      (¬ (([1, 2, 3] : List Byte).length : Int) > Example.writable.Len - 2 →
        (Example.writable.WriteAt Example.world [1, 2, 3] 2).2.2 = none)) :=
  ReadAt_WriteAt_count Example.world Example.writable [1, 2, 3] 2 (by decide) (by decide)
    (by decide)

/-- C8, as stated, fails: on the open example mapping of length 4,
`Direct(5, 3)` has `low >= high` and yet fails with `ErrorInvalidOffset`
carrying 5, not with `ErrorInvalidOffsetRange`. -/
theorem Direct_low_out_of_bounds :
    Example.writable.data ≠ none ∧ (5 : Int) ≥ 3 ∧
      Example.writable.Direct 5 3 = (none, some (Error.ErrorInvalidOffset 5)) ∧
      ∀ l h, (Example.writable.Direct 5 3).2 ≠ some (Error.ErrorInvalidOffsetRange l h) := by
  refine ⟨by decide, by decide, by decide, ?_⟩
  intro l h
  have : (Example.writable.Direct 5 3).2 = some (Error.ErrorInvalidOffset 5) := by decide
  rw [this]
  simp

/-- C8, amended: on an open mapping, `Direct(low, high)` with `low >= high`
fails with `ErrorInvalidOffsetRange` (carrying `low` and `high - 1`) when
`0 <= low < Len()` and `1 <= high <= Len()`, and with `ErrorInvalidOffset`
otherwise; and with `high > Len()` it fails with `ErrorInvalidOffset`,
carrying `low` when `low` is outside `[0, Len())` and `high` otherwise. -/
theorem Direct_errors (m : Mapping) (low high : Int) (hopen : m.data ≠ none) :
    (low ≥ high →
      ((0 ≤ low ∧ low < m.Len ∧ 1 ≤ high ∧ high ≤ m.Len) →
        m.Direct low high = (none, some (Error.ErrorInvalidOffsetRange low (high - 1)))) ∧
      (¬ (0 ≤ low ∧ low < m.Len ∧ 1 ≤ high ∧ high ≤ m.Len) →
        ∃ o, m.Direct low high = (none, some (Error.ErrorInvalidOffset o)))) ∧
    (high > m.Len →
      ((low < 0 ∨ low ≥ m.Len) →
        m.Direct low high = (none, some (Error.ErrorInvalidOffset low))) ∧
      (¬ (low < 0 ∨ low ≥ m.Len) →
        m.Direct low high = (none, some (Error.ErrorInvalidOffset high)))) := by
  cases hd : m.data with
  | none => exact absurd hd hopen
  | some d =>
    have hlen : m.Len = d.len := by simp [Mapping.Len, hd]
    rw [hlen]
    simp only [Mapping.Direct, hd, Off]
    refine ⟨fun hge => ⟨?_, ?_⟩, fun hgt => ⟨?_, ?_⟩⟩
    · rintro ⟨a, b, c, e⟩
      have g1 : ¬ (low < 0 ∨ low ≥ d.len) := by omega
      have g2 : ¬ (high < 1 ∨ high > d.len) := by omega
      simp [g1, g2, hge]
    · intro hn
      by_cases g1 : low < 0 ∨ low ≥ d.len
      · exact ⟨low, by simp [g1]⟩
      · have g2 : high < 1 ∨ high > d.len := by omega
        exact ⟨high, by simp [g1, g2]⟩
    · intro g1
      simp [g1]
    · intro g1
      have g2 : high < 1 ∨ high > d.len := Or.inr hgt
      simp [g1, g2]

/-- C8 amended, at a concrete input: `Direct(2, 2)` and `Direct(1, 9)` on the
four-byte example mapping. -/
theorem Direct_errors_witness :
    Example.writable.Direct 2 2 = (none, some (Error.ErrorInvalidOffsetRange 2 (2 - 1))) ∧
      Example.writable.Direct 1 9 = (none, some (Error.ErrorInvalidOffset 9)) :=
  ⟨((Direct_errors Example.writable 2 2 (by decide)).1 (by decide)).1 (by decide),
   ((Direct_errors Example.writable 1 9 (by decide)).2 (by decide)).2 (by decide)⟩

/-- C9: on an open mapping, `Direct(low, high)` succeeds exactly when
`0 <= low < high <= Len()`; it then returns the slice that starts `low` bytes
into the view and has length `high - low`, whose byte `j` is byte `low + j`
of the view, an address inside the view; when it fails it returns the nil
slice. -/
theorem Direct_iff (m : Mapping) (low high : Int) (hopen : m.data ≠ none) :
    ((m.Direct low high).2 = none ↔ 0 ≤ low ∧ low < high ∧ high ≤ m.Len) ∧
    ((m.Direct low high).2 ≠ none → (m.Direct low high).1 = none) ∧
    ((m.Direct low high).2 = none →
      ∃ s d, (m.Direct low high).1 = some s ∧ m.data = some d ∧
        s.data = d.data + low.toNat ∧ s.len = high - low ∧
        ∀ (w : World) (j : Int), 0 ≤ j → j < s.len →
          m.ReadByteAt w (low + j) = (w.mem (s.data + j.toNat), none) ∧
          d.data ≤ s.data + j.toNat ∧ s.data + j.toNat < d.data + m.Len.toNat) := by
  cases hd : m.data with
  | none => exact absurd hd hopen
  | some d =>
    have hlen : m.Len = d.len := by simp [Mapping.Len, hd]
    rw [hlen]
    by_cases g1 : low < 0 ∨ low ≥ d.len
    · simp only [Mapping.Direct, hd, Off, g1, if_true]
      refine ⟨?_, ?_, ?_⟩
      · simp only [reduceCtorEq, false_iff]
        omega
      · simp
      · simp
    by_cases g2 : high < 1 ∨ high > d.len
    · simp only [Mapping.Direct, hd, Off, g1, g2, if_true, if_false]
      refine ⟨?_, ?_, ?_⟩
      · simp only [reduceCtorEq, false_iff]
        omega
      · simp
      · simp
    by_cases g3 : low ≥ high
    · simp only [Mapping.Direct, hd, Off, g1, g2, g3, if_true, if_false]
      refine ⟨?_, ?_, ?_⟩
      · simp only [reduceCtorEq, false_iff]
        omega
      · simp
      · simp
    simp only [Mapping.Direct, hd, Off, g1, g2, g3, if_false]
    refine ⟨?_, ?_, ?_⟩
    · simp only [true_iff]
      omega
    · simp
    · intro _
      refine ⟨_, d, rfl, rfl, rfl, rfl, ?_⟩
      intro w j hj0 hj1
      simp only [Slice.slice] at hj1 ⊢
      have g4 : ¬ (low + j < 0 ∨ low + j ≥ d.len) := by omega
      have e1 : (low + j).toNat = low.toNat + j.toNat := by omega
      refine ⟨?_, by omega, by omega⟩
      simp [Mapping.ReadByteAt, hd, Off, g4, e1, Nat.add_assoc]

/-- C9 at a concrete input: `Direct(1, 3)` on the four-byte example mapping. -/
theorem Direct_iff_witness :
    ((Example.writable.Direct 1 3).2 = none ↔
        (0 : Int) ≤ 1 ∧ (1 : Int) < 3 ∧ (3 : Int) ≤ Example.writable.Len) ∧
      Example.writable.Direct 1 3 = (some { data := 0x10011, len := 2, cap := 3 }, none) :=
  ⟨(Direct_iff Example.writable 1 3 (by decide)).1, by decide⟩

/-- C10: `NewMapping`, on Linux and on Windows alike, returns
`ErrorInvalidOffset` for a negative offset, `ErrorInvalidSize` for an offset
that is not negative with a size above `MaxInt`, and `ErrorInvalidMode` when
those two checks pass and the mode is outside the three defined ones; in each
case it returns no mapping and leaves the world as it was, so that no
primitive has been invoked. -/
theorem NewMapping_validation (os : OS) (w : World) (fd : Nat) (offset : Int) (size : Nat)
    (options : Option Options) :
    (offset < 0 →
      Linux.NewMapping os w fd offset size options
        = (w, none, some (Error.ErrorInvalidOffset offset)) ∧
      Windows.NewMapping os w fd offset size options
        = (w, none, some (Error.ErrorInvalidOffset offset))) ∧
    (0 ≤ offset → (size : Int) > MaxInt →
      Linux.NewMapping os w fd offset size options
        = (w, none, some (Error.ErrorInvalidSize size)) ∧
      Windows.NewMapping os w fd offset size options
        = (w, none, some (Error.ErrorInvalidSize size))) ∧
    (0 ≤ offset → (size : Int) ≤ MaxInt →
      ∀ o, options = some o →
        ¬ (o.Mode = ModeReadOnly ∨ o.Mode = ModeReadWrite ∨ o.Mode = ModeReadWritePrivate) →
        Linux.NewMapping os w fd offset size options
          = (w, none, some (Error.ErrorInvalidMode o.Mode)) ∧
        Windows.NewMapping os w fd offset size options
          = (w, none, some (Error.ErrorInvalidMode o.Mode))) := by
  refine ⟨fun h => ?_, fun h0 h => ?_, fun h0 h1 o ho hm => ?_⟩
  · simp [Linux.NewMapping, Windows.NewMapping, h]
  · have h0n : ¬ offset < 0 := by omega
    have h2 : size > toUintptr MaxInt := (size_gt_MaxInt_iff size).2 h
    simp [Linux.NewMapping, Windows.NewMapping, h0n, h2]
  · have h0n : ¬ offset < 0 := by omega
    have h1n : ¬ size > toUintptr MaxInt := by rw [size_gt_MaxInt_iff]; omega
    subst ho
    simp only [ModeReadOnly, ModeReadWrite, ModeReadWritePrivate] at hm
    have a1 : o.Mode < ModeReadOnly ∨ o.Mode > ModeReadWritePrivate := by
      simp only [ModeReadOnly, ModeReadWritePrivate]
      omega
    have b1 : ¬ o.Mode = ModeReadOnly := by simp only [ModeReadOnly]; omega
    have b2 : ¬ o.Mode = ModeReadWrite := by simp only [ModeReadWrite]; omega
    have b3 : ¬ o.Mode = ModeReadWritePrivate := by simp only [ModeReadWritePrivate]; omega
    simp [Linux.NewMapping, Windows.NewMapping, h0n, h1n, Linux.NewMapping.options,
      Windows.NewMapping.options, a1, b1, b2, b3]

/-- C10 at concrete inputs: offset -1; size `2 ^ 63`; mode 3. -/
theorem NewMapping_validation_witness :
    (Linux.NewMapping Example.os Example.world 3 (-1) 10 none
        = (Example.world, none, some (Error.ErrorInvalidOffset (-1))) ∧
      Windows.NewMapping Example.os Example.world 3 (-1) 10 none
        = (Example.world, none, some (Error.ErrorInvalidOffset (-1)))) ∧
    (Linux.NewMapping Example.os Example.world 3 0 (2 ^ 63) none
        = (Example.world, none, some (Error.ErrorInvalidSize (2 ^ 63))) ∧
      Windows.NewMapping Example.os Example.world 3 0 (2 ^ 63) none
        = (Example.world, none, some (Error.ErrorInvalidSize (2 ^ 63)))) ∧
    (Linux.NewMapping Example.os Example.world 3 0 10 (some { Mode := 3, Executable := true })
        = (Example.world, none, some (Error.ErrorInvalidMode 3)) ∧
      Windows.NewMapping Example.os Example.world 3 0 10 (some { Mode := 3, Executable := true })
        = (Example.world, none, some (Error.ErrorInvalidMode 3))) :=
  ⟨(NewMapping_validation Example.os Example.world 3 (-1) 10 none).1 (by decide),
   (NewMapping_validation Example.os Example.world 3 0 (2 ^ 63) none).2.1 (by decide) (by decide),
   (NewMapping_validation Example.os Example.world 3 0 10
      (some { Mode := 3, Executable := true })).2.2 (by decide) (by decide) _ rfl (by decide)⟩

/-- On an open mapping none of the five accessors of `mmap.go` reports
`ErrorClosed`. -/
theorem open_not_ErrorClosed (m : Mapping) (hopen : m.data ≠ none) (w : World)
    (low high offset : Int) (b : Byte) (buffer : List Byte) :
    (m.Direct low high).2 ≠ some Error.ErrorClosed ∧
      (m.ReadByteAt w offset).2 ≠ some Error.ErrorClosed ∧
      (m.WriteByteAt w b offset).2 ≠ some Error.ErrorClosed ∧
      (m.ReadAt w buffer offset).2.2 ≠ some Error.ErrorClosed ∧
      (m.WriteAt w buffer offset).2.2 ≠ some Error.ErrorClosed := by
  cases hd : m.data with
  | none => exact absurd hd hopen
  | some d =>
    refine ⟨?_, ?_, ?_, ?_, ?_⟩
    · simp only [Mapping.Direct, hd]
      split_ifs <;> simp
    · simp only [Mapping.ReadByteAt, hd]
      split_ifs <;> simp
    · simp only [Mapping.WriteByteAt, hd]
      split_ifs <;> simp
    · simp only [Mapping.ReadAt, hd]
      split_ifs <;> simp
    · simp only [Mapping.WriteAt, hd]
      split_ifs <;> simp

theorem MunlockE_eq (os : OS) (w : World) (a l : Nat) :
    MunlockE os w a l = ({ w with calls := w.calls ++ [Call.Syscall SYS_MUNLOCK a l 0] },
      if (os.Syscall w.calls (Call.Syscall SYS_MUNLOCK a l 0)).2 = 0 then none
      else some (Error.SyscallError SymbolMunlock (Error.Errno (os.Syscall w.calls (Call.Syscall SYS_MUNLOCK a l 0)).2))) := by
  simp only [MunlockE, Munlock, World.Syscall]
  by_cases h : (os.Syscall w.calls (Call.Syscall SYS_MUNLOCK a l 0)).2 = 0 <;>
    simp [h, NewSyscallError, Errno]

theorem MsyncE_eq (os : OS) (w : World) (a l : Nat) :
    MsyncE os w a l = ({ w with calls := w.calls ++ [Call.Syscall SYS_MSYNC a l MS_SYNC] },
      if (os.Syscall w.calls (Call.Syscall SYS_MSYNC a l MS_SYNC)).2 = 0 then none
      else some (Error.SyscallError SymbolMsync (Error.Errno (os.Syscall w.calls (Call.Syscall SYS_MSYNC a l MS_SYNC)).2))) := by
  simp only [MsyncE, Msync, World.Syscall]
  by_cases h : (os.Syscall w.calls (Call.Syscall SYS_MSYNC a l MS_SYNC)).2 = 0 <;>
    simp [h, NewSyscallError, Errno]

theorem MunmapE_eq (os : OS) (w : World) (a l : Nat) :
    MunmapE os w a l = ({ w with calls := w.calls ++ [Call.Syscall SYS_MUNMAP a l 0] },
      if (os.Syscall w.calls (Call.Syscall SYS_MUNMAP a l 0)).2 = 0 then none
      else some (Error.SyscallError SymbolMunmap (Error.Errno (os.Syscall w.calls (Call.Syscall SYS_MUNMAP a l 0)).2))) := by
  simp only [MunmapE, Munmap, World.Syscall]
  by_cases h : (os.Syscall w.calls (Call.Syscall SYS_MUNMAP a l 0)).2 = 0 <;>
    simp [h, NewSyscallError, Errno]

/-- `MlockE` returns an error for every error number, zero included. -/
theorem MlockE_eq (os : OS) (w : World) (a l : Nat) :
    MlockE os w a l = ({ w with calls := w.calls ++ [Call.Syscall SYS_MLOCK a l 0] },
      some (Error.SyscallError SymbolMlock
        (Error.Errno (os.Syscall w.calls (Call.Syscall SYS_MLOCK a l 0)).2))) := by
  simp only [MlockE, Mlock, World.Syscall]
  by_cases h : (os.Syscall w.calls (Call.Syscall SYS_MLOCK a l 0)).2 = 0 <;>
    simp [h, NewSyscallError, Errno]

theorem wrapped_ne_ErrorClosed (name : String) (errno : Nat) :
    (if errno = 0 then none else some (Error.SyscallError name (Error.Errno errno)))
      ≠ some Error.ErrorClosed := by
  split_ifs <;> simp

/-- On Linux `Sync` on an open writable mapping is the `msync` wrapper on the
aligned region. -/
theorem Sync_writable_linux (os : OS) (w : World) (m : Mapping) (d : Slice)
    (hd : m.data = some d) (hw : m.canWrite = true) :
    Linux.Mapping.Sync os w m = MsyncE os w m.alignedAddress m.alignedSize := by
  simp [Linux.Mapping.Sync, hd, hw]

/-- The outcomes of `Close` on an open Linux mapping, by the answers of the
system calls: the flush (only on a writable mapping) fails, or the release
fails, or both succeed. -/
theorem Close_cases_linux (os : OS) (w : World) (m : Mapping) (d : Slice)
    (hd : m.data = some d) :
    (m.canWrite = true ∧
      Linux.Mapping.Sync os w m = MsyncE os w m.alignedAddress m.alignedSize ∧
      (((MsyncE os w m.alignedAddress m.alignedSize).2 ≠ none ∧
        Linux.Mapping.Close os w m = ((MsyncE os w m.alignedAddress m.alignedSize).1, m,
          (MsyncE os w m.alignedAddress m.alignedSize).2)) ∨
       ((MsyncE os w m.alignedAddress m.alignedSize).2 = none ∧
        (MunmapE os (MsyncE os w m.alignedAddress m.alignedSize).1
          m.alignedAddress m.alignedSize).2 ≠ none ∧
        Linux.Mapping.Close os w m =
          ((MunmapE os (MsyncE os w m.alignedAddress m.alignedSize).1
              m.alignedAddress m.alignedSize).1, m,
           (MunmapE os (MsyncE os w m.alignedAddress m.alignedSize).1
              m.alignedAddress m.alignedSize).2)) ∨
       ((MsyncE os w m.alignedAddress m.alignedSize).2 = none ∧
        (MunmapE os (MsyncE os w m.alignedAddress m.alignedSize).1
          m.alignedAddress m.alignedSize).2 = none ∧
        Linux.Mapping.Close os w m =
          ({ (MunmapE os (MsyncE os w m.alignedAddress m.alignedSize).1
                m.alignedAddress m.alignedSize).1 with finalizer := false },
           { m with data := none }, none)))) ∨
    (m.canWrite = false ∧
      (((MunmapE os w m.alignedAddress m.alignedSize).2 ≠ none ∧
        Linux.Mapping.Close os w m = ((MunmapE os w m.alignedAddress m.alignedSize).1, m,
          (MunmapE os w m.alignedAddress m.alignedSize).2)) ∨
       ((MunmapE os w m.alignedAddress m.alignedSize).2 = none ∧
        Linux.Mapping.Close os w m =
          ({ (MunmapE os w m.alignedAddress m.alignedSize).1 with finalizer := false },
           { m with data := none }, none)))) := by
  by_cases hw : m.canWrite = true
  · left
    have hs := Sync_writable_linux os w m d hd hw
    refine ⟨hw, hs, ?_⟩
    by_cases h1 : (MsyncE os w m.alignedAddress m.alignedSize).2 = none
    · by_cases h2 : (MunmapE os (MsyncE os w m.alignedAddress m.alignedSize).1
          m.alignedAddress m.alignedSize).2 = none
      · right; right
        refine ⟨h1, h2, ?_⟩
        simp [Linux.Mapping.Close, hd, hw, hs, h1, h2]
      · right; left
        refine ⟨h1, h2, ?_⟩
        simp [Linux.Mapping.Close, hd, hw, hs, h1, h2]
    · left
      refine ⟨h1, ?_⟩
      simp [Linux.Mapping.Close, hd, hw, hs, h1]
  · right
    have hw2 : m.canWrite = false := by simpa using hw
    refine ⟨hw2, ?_⟩
    by_cases h2 : (MunmapE os w m.alignedAddress m.alignedSize).2 = none
    · right
      refine ⟨h2, ?_⟩
      simp [Linux.Mapping.Close, hd, hw2, h2]
    · left
      refine ⟨h2, ?_⟩
      simp [Linux.Mapping.Close, hd, hw2, h2]

/-- On Linux a `Close` that returns an error returns the mapping it was given. -/
theorem Close_error_linux (os : OS) (w : World) (m : Mapping)
    (h : (Linux.Mapping.Close os w m).2.2 ≠ none) : (Linux.Mapping.Close os w m).2.1 = m := by
  cases hd : m.data with
  | none => simp [Linux.Mapping.Close, hd]
  | some d =>
    rcases Close_cases_linux os w m d hd with
      ⟨-, -, ⟨-, e⟩ | ⟨-, -, e⟩ | ⟨-, -, e⟩⟩ | ⟨-, ⟨-, e⟩ | ⟨-, e⟩⟩ <;>
      rw [e] at h ⊢ <;> simp at h ⊢

/-- On Linux a `Close` of an open mapping that returns an error has released
nothing: it returns the mapping it was given, and the primitives it invoked
leave the mapped regions as they were. -/
theorem Close_error_keeps_region_linux (os : OS) (w : World) (m : Mapping)
    (regions : List (Nat × Nat)) (hopen : m.data ≠ none)
    (herr : (Linux.Mapping.Close os w m).2.2 ≠ none) :
    (Linux.Mapping.Close os w m).2.1 = m ∧
      ∃ trace, (Linux.Mapping.Close os w m).1.calls = w.calls ++ trace ∧
        os.regionsAfter regions w.calls trace = regions := by
  refine ⟨Close_error_linux os w m herr, ?_⟩
  cases hd : m.data with
  | none => exact absurd hd hopen
  | some d =>
    have hne : ¬ (SYS_MSYNC = SYS_MUNMAP) := by decide
    rcases Close_cases_linux os w m d hd with
      ⟨-, -, ⟨-, e⟩ | ⟨h1, h2, e⟩ | ⟨-, -, e⟩⟩ | ⟨-, ⟨h2, e⟩ | ⟨-, e⟩⟩
    · refine ⟨[Call.Syscall SYS_MSYNC m.alignedAddress m.alignedSize MS_SYNC], ?_, ?_⟩
      · rw [e, MsyncE_eq]
      · simp [OS.regionsAfter, Call.effect, hne]
    · refine ⟨[Call.Syscall SYS_MSYNC m.alignedAddress m.alignedSize MS_SYNC,
        Call.Syscall SYS_MUNMAP m.alignedAddress m.alignedSize 0], ?_, ?_⟩
      · rw [e, MunmapE_eq, MsyncE_eq]
        simp
      · rw [MunmapE_eq, MsyncE_eq] at h2
        simp only [ne_eq, ite_eq_left_iff, not_forall] at h2
        obtain ⟨h3, -⟩ := h2
        simp [OS.regionsAfter, Call.effect, hne, h3]
    · rw [e] at herr
      exact absurd rfl herr
    · refine ⟨[Call.Syscall SYS_MUNMAP m.alignedAddress m.alignedSize 0], ?_, ?_⟩
      · rw [e, MunmapE_eq]
      · rw [MunmapE_eq] at h2
        simp only [ne_eq, ite_eq_left_iff, not_forall] at h2
        obtain ⟨h3, -⟩ := h2
        simp [OS.regionsAfter, Call.effect, h3]
    · rw [e] at herr
      exact absurd rfl herr

/-- C11 (the code departs from the claim): on the Windows platform whose
`CloseHandle` fails, the view of the example mapping (four bytes from address
`0x10010`) lies in the mapped region of 20 bytes at `0x10000`. `Close` invokes
`UnmapViewOfFile` on that region, which succeeds, and then returns the error
of `CloseHandle`. The `Mapping` value is as before, with its view still set
and `Len()` still four, and a later `ReadByteAt` does not report
`ErrorClosed`; but the region has been released, so the bytes of the view
are no longer mapped. -/
theorem Close_error_after_release_windows :
    mapped [(0x10000, 20)] 0x10010 = true ∧ mapped [(0x10000, 20)] 0x10013 = true ∧
      (Windows.Mapping.Close Example.osCloseHandleFails Example.world Example.windows).2.2
        = some (Error.Errno 6) ∧
      (Windows.Mapping.Close Example.osCloseHandleFails Example.world Example.windows).2.1
        = Example.windows ∧
      Example.windows.data = some { data := 0x10010, len := 4, cap := 4 } ∧
      (Windows.Mapping.Close Example.osCloseHandleFails Example.world Example.windows).1.calls
        = [Call.FlushViewOfFile 0x10000 20, Call.FlushFileBuffers 2,
            Call.UnmapViewOfFile 0x10000, Call.CloseHandle 3] ∧
      Example.osCloseHandleFails.regionsAfter [(0x10000, 20)] []
          (Windows.Mapping.Close Example.osCloseHandleFails Example.world
            Example.windows).1.calls = [] ∧
      mapped (Example.osCloseHandleFails.regionsAfter [(0x10000, 20)] []
          (Windows.Mapping.Close Example.osCloseHandleFails Example.world
            Example.windows).1.calls) 0x10010 = false ∧
      ((Windows.Mapping.Close Example.osCloseHandleFails Example.world
            Example.windows).2.1.ReadByteAt
          (Windows.Mapping.Close Example.osCloseHandleFails Example.world Example.windows).1
          0).2 = none := by
  refine ⟨by decide, by decide, by decide, by decide, by decide, by decide, by decide, by decide,
    by decide⟩

/-- C12 (the code departs from the claim): on the Windows platform whose
`CloseHandle` fails, a first `Close` of the example mapping invokes
`UnmapViewOfFile` on the aligned address, which succeeds, then fails in
`CloseHandle` and leaves the mapping open; a second `Close` invokes
`UnmapViewOfFile` on the same address again. -/
theorem Close_twice_windows :
    (Windows.Mapping.Close Example.osCloseHandleFails Example.world Example.windows).1.calls
        = [Call.FlushViewOfFile 0x10000 20, Call.FlushFileBuffers 2,
            Call.UnmapViewOfFile 0x10000, Call.CloseHandle 3] ∧
      (Example.osCloseHandleFails.Api
          [Call.FlushViewOfFile 0x10000 20, Call.FlushFileBuffers 2]
          (Call.UnmapViewOfFile 0x10000)).2 = none ∧
      (Windows.Mapping.Close Example.osCloseHandleFails Example.world Example.windows).2
        = (Example.windows, some (Error.Errno 6)) ∧
      (Windows.Mapping.Close Example.osCloseHandleFails
          (Windows.Mapping.Close Example.osCloseHandleFails Example.world Example.windows).1
          (Windows.Mapping.Close Example.osCloseHandleFails Example.world
            Example.windows).2.1).1.calls
        = [Call.FlushViewOfFile 0x10000 20, Call.FlushFileBuffers 2,
            Call.UnmapViewOfFile 0x10000, Call.CloseHandle 3,
            Call.FlushViewOfFile 0x10000 20, Call.FlushFileBuffers 2,
            Call.UnmapViewOfFile 0x10000, Call.CloseHandle 3] := by
  refine ⟨by decide, by decide, by decide, by decide⟩

/-- C13 (the code departs from the claim): on the example platform `mlock`
reports success (error number 0) for the aligned region of the example
mapping, and yet `Lock` returns an error, the system call error of `mlock`
wrapping the error number 0; `Unlock`, in the same situation, returns no
error. -/
theorem Lock_returns_error_on_success :
    (Linux.Mapping.Lock Example.os Example.world Example.writable).1.calls
        = [Call.Syscall SYS_MLOCK 0x10000 20 0] ∧
      (Example.os.Syscall [] (Call.Syscall SYS_MLOCK 0x10000 20 0)).2 = 0 ∧
      (Linux.Mapping.Lock Example.os Example.world Example.writable).2
        = some (Error.SyscallError "mlock" (Error.Errno 0)) ∧
      (Linux.Mapping.Unlock Example.os Example.world Example.writable).1.calls
        = [Call.Syscall SYS_MUNLOCK 0x10000 20 0] ∧
      (Linux.Mapping.Unlock Example.os Example.world Example.writable).2 = none := by
  refine ⟨by decide, by decide, by decide, by decide, by decide⟩

/-- The bytes that `copyOut` reads back right after `copyIn` wrote a buffer
of the same length to the same slice are the first bytes of that buffer. -/
theorem copyOut_copyIn (mem : Nat → Byte) (s : Slice) (buffer rb : List Byte)
    (hlen : rb.length = buffer.length) :
    (copyOut (copyIn mem s buffer).1 rb s).2 = (copyIn mem s buffer).2 ∧
      (copyOut (copyIn mem s buffer).1 rb s).1.take (copyIn mem s buffer).2.toNat
        = buffer.take (copyIn mem s buffer).2.toNat := by
  have hn : min (rb.length : Int) s.len = min s.len (buffer.length : Int) := by
    rw [hlen]; exact min_comm _ _
  refine ⟨by simp [copyOut, copyIn, hn], ?_⟩
  simp only [copyOut, copyIn, hn]
  generalize hk : (min s.len (buffer.length : Int)).toNat = k
  have hkb : k ≤ buffer.length := by omega
  rw [List.take_left' (by simp)]
  apply List.ext_getElem
  · simp [hkb]
  · intro i h1 h2
    have hi : i < k := by simpa using h1
    have hib : i < buffer.length := by omega
    simp [hi, List.getElem?_eq_getElem hib]

/-- C14: on an open writable mapping and for an in-bounds offset, after
`WriteAt(buffer, offset)` has returned the count `n`, a `ReadAt` at the same
offset into a buffer of the same length returns the count `n` and, in its
first `n` bytes, the first `n` bytes of the written buffer; and every view
byte outside `[offset, offset + n)` reads as it did before the write. -/
theorem WriteAt_ReadAt (w : World) (m : Mapping) (buffer rb : List Byte) (offset : Int)
    (hopen : m.data ≠ none) (hw : m.CanWrite = true) (h0 : 0 ≤ offset) (h1 : offset < m.Len)
    (hlen : rb.length = buffer.length) :
    (m.ReadAt (m.WriteAt w buffer offset).1 rb offset).2.1 = (m.WriteAt w buffer offset).2.1 ∧
      (m.ReadAt (m.WriteAt w buffer offset).1 rb offset).1.take
          (m.WriteAt w buffer offset).2.1.toNat
        = buffer.take (m.WriteAt w buffer offset).2.1.toNat ∧
      ∀ other : Int, 0 ≤ other → other < m.Len →
        (other < offset ∨ offset + (m.WriteAt w buffer offset).2.1 ≤ other) →
        m.ReadByteAt (m.WriteAt w buffer offset).1 other = m.ReadByteAt w other := by
  cases hd : m.data with
  | none => exact absurd hd hopen
  | some d =>
    have hw2 : m.canWrite = true := hw
    have hl : m.Len = d.len := by simp [Mapping.Len, hd]
    rw [hl] at h1
    have hg : ¬ (offset < 0 ∨ offset ≥ d.len) := by omega
    have hW : m.WriteAt w buffer offset
        = ({ w with mem := (copyIn w.mem (d.sliceFrom offset) buffer).1 },
            (copyIn w.mem (d.sliceFrom offset) buffer).2,
            if (copyIn w.mem (d.sliceFrom offset) buffer).2 < (buffer.length : Int)
              then some Error.EOF else none) := by
      simp only [Mapping.WriteAt, hd, hw2, Off, hg, if_false, not_true_eq_false]
      split_ifs <;> rfl
    have hR : ∀ w2 : World, m.ReadAt w2 rb offset
        = ((copyOut w2.mem rb (d.sliceFrom offset)).1, (copyOut w2.mem rb (d.sliceFrom offset)).2,
            if (copyOut w2.mem rb (d.sliceFrom offset)).2 < (rb.length : Int)
              then some Error.EOF else none) := by
      intro w2
      simp only [Mapping.ReadAt, hd, Off, hg, if_false]
      split_ifs <;> rfl
    have hc := copyOut_copyIn w.mem (d.sliceFrom offset) buffer rb hlen
    rw [hW, hR]
    refine ⟨hc.1, hc.2, ?_⟩
    intro other ho0 ho1 hout
    rw [hl] at ho1
    have hg2 : ¬ (other < 0 ∨ other ≥ d.len) := by omega
    simp only [copyIn, Slice.sliceFrom] at hout
    have hne : ¬ (d.data + offset.toNat ≤ d.data + other.toNat ∧
        d.data + other.toNat
          < d.data + offset.toNat + (min (d.len - offset) (buffer.length : Int)).toNat) := by
      omega
    simp only [Mapping.ReadByteAt, hd, Off, hg2, if_false, copyIn, Slice.sliceFrom]
    rw [if_neg hne]

/-- C14 at a concrete input: the three bytes 1, 2, 3 written at offset 2 of
the four-byte writable example mapping, of which two fit. -/
theorem WriteAt_ReadAt_witness :
    (Example.writable.WriteAt Example.world [1, 2, 3] 2).2.1 = 2 ∧
      (Example.writable.ReadAt (Example.writable.WriteAt Example.world [1, 2, 3] 2).1
          [9, 9, 9] 2).2.1 = (Example.writable.WriteAt Example.world [1, 2, 3] 2).2.1 ∧
      (Example.writable.ReadAt (Example.writable.WriteAt Example.world [1, 2, 3] 2).1
          [9, 9, 9] 2).1 = [1, 2, 9] :=
  ⟨by decide,
   (WriteAt_ReadAt Example.world Example.writable [1, 2, 3] [9, 9, 9] 2 (by decide) (by decide)
      (by decide) (by decide) (by decide)).1,
   by decide⟩

/-- C15 (the code departs from the claim): with 4096-byte pages and the
requested offset 5000, the outer offset that `NewMapping` computes is the
quotient 1, which is what it passes as the file offset to `mmap` on Linux and
to `MapViewOfFile` on Windows; 1 is not a multiple of 4096, and the largest
multiple of 4096 that does not exceed 5000 is 4096.  The inner offset is the
remainder 904. -/
theorem NewMapping_outerOffset_5000 :
    Int.tdiv 5000 Example.os.pageSize = 1 ∧ Int.tmod 5000 Example.os.pageSize = 904 ∧
      (Linux.NewMapping Example.os Example.world 3 5000 10 none).1.calls
        = [Call.Syscall6 SYS_MMAP 0 914 PROT_READ MAP_SHARED 3 1] ∧
      (Windows.NewMapping Example.os Example.world 3 5000 10 none).1.calls.getLast?
        = some (Call.MapViewOfFile 0x10000 Syspack.Windows.FILE_MAP_READ 0 1 914) ∧
      (1 : Int) % Example.os.pageSize ≠ 0 ∧
      (4096 : Int) % Example.os.pageSize = 0 ∧ (4096 : Int) ≤ 5000 ∧
      (5000 : Int) < 4096 + Example.os.pageSize := by
  refine ⟨by decide, by decide, by decide, by decide, by decide, by decide, by decide, by decide⟩

/-- C16, as stated, fails: on the Windows platform whose `MapViewOfFile`
fails, `NewMapping` has duplicated the file handle (2) and created the
mapping object (3), returns the error of `MapViewOfFile` with no mapping, and
has invoked `CloseHandle` on neither handle. -/
theorem NewMapping_windows_leaves_handles :
    (Windows.NewMapping Example.osMapViewFails Example.world 9 5000 10 none).2
        = (none, some (Error.SyscallError "MapViewOfFile" (Error.Errno 8))) ∧
      (Windows.NewMapping Example.osMapViewFails Example.world 9 5000 10 none).1.calls
        = [Call.GetCurrentProcess, Call.DuplicateHandle 1 9 1 0 true 2,
            Call.CreateFileMapping 2 2 0 915, Call.MapViewOfFile 3 4 0 1 914] ∧
      Call.CloseHandle 2 ∉
        (Windows.NewMapping Example.osMapViewFails Example.world 9 5000 10 none).1.calls ∧
      Call.CloseHandle 3 ∉
        (Windows.NewMapping Example.osMapViewFails Example.world 9 5000 10 none).1.calls := by
  refine ⟨by decide, by decide, by decide, by decide⟩

/-- C16, amended: in the Windows `NewMapping`, once the checks have passed
and the process handle and the duplicated file handle have been obtained,
a failure of `CreateFileMapping`, or of `MapViewOfFile` after the mapping
object was created, makes `NewMapping` return that error, wrapped with the
name of the function, and no mapping; the failing invocation is the last
primitive invoked, so nothing acquired earlier is released. -/
theorem NewMapping_windows_first_error (os : OS) (w : World) (fd : Nat) (offset : Int)
    (size : Nat) (options : Option Options) (protection access : Nat) (canWrite canExecute : Bool)
    (hProcess hFile : Nat) (tr : List Call) (cfm : Call)
    (hoff : 0 ≤ offset) (hsize : (size : Int) ≤ MaxInt)
    (hopt : Windows.NewMapping.options options = .ok (protection, access, canWrite, canExecute))
    (hpage : 0 < os.pageSize)
    (hp : os.Api w.calls Call.GetCurrentProcess = (hProcess, none))
    (hd : os.Api (w.calls ++ [Call.GetCurrentProcess])
      (Call.DuplicateHandle hProcess fd hProcess 0 true Syspack.Windows.DUPLICATE_SAME_ACCESS)
      = (hFile, none))
    (htr : tr = w.calls ++ [Call.GetCurrentProcess,
      Call.DuplicateHandle hProcess fd hProcess 0 true Syspack.Windows.DUPLICATE_SAME_ACCESS])
    (hcfm : cfm = Call.CreateFileMapping hFile protection
      (HighLow ((toUintptr (Int.tdiv offset os.pageSize)
        + (toUintptr (Int.tmod offset os.pageSize) + size) % 2 ^ 64) % 2 ^ 64)).1
      (HighLow ((toUintptr (Int.tdiv offset os.pageSize)
        + (toUintptr (Int.tmod offset os.pageSize) + size) % 2 ^ 64) % 2 ^ 64)).2) :
    (∀ h e, os.Api tr cfm = (h, some e) →
      Windows.NewMapping os w fd offset size options
        = ({ w with calls := tr ++ [cfm] }, none,
            some (Error.SyscallError Syspack.Windows.SymbolCreateFileMapping e))) ∧
    (∀ hMapping h e, os.Api tr cfm = (hMapping, none) →
      os.Api (tr ++ [cfm])
        (Call.MapViewOfFile hMapping access (HighLow (toUintptr (Int.tdiv offset os.pageSize))).1
          (HighLow (toUintptr (Int.tdiv offset os.pageSize))).2
          ((toUintptr (Int.tmod offset os.pageSize) + size) % 2 ^ 64)) = (h, some e) →
      Windows.NewMapping os w fd offset size options
        = ({ w with calls := tr ++ [cfm,
              Call.MapViewOfFile hMapping access
                (HighLow (toUintptr (Int.tdiv offset os.pageSize))).1
                (HighLow (toUintptr (Int.tdiv offset os.pageSize))).2
                ((toUintptr (Int.tmod offset os.pageSize) + size) % 2 ^ 64)] }, none,
            some (Error.SyscallError Syspack.Windows.SymbolMapViewOfFile e))) := by
  have h1 : ¬ offset < 0 := by omega
  have h2 : ¬ size > toUintptr MaxInt := by rw [size_gt_MaxInt_iff]; omega
  have h3 : ¬ os.pageSize < 0 := by omega
  have h4 : ¬ os.pageSize = 0 := by omega
  subst htr hcfm
  constructor
  · intro h e hc
    simp at hc
    simp [Windows.NewMapping, h1, h2, h3, h4, hopt, Syspack.Windows.GetCurrentProcessE,
      Syspack.Windows.DuplicateHandleE, Syspack.Windows.CreateFileMappingE, World.Api, hp, hd, hc,
      NewSyscallError]
  · intro hMapping h e hc hv
    simp at hc hv
    simp [Windows.NewMapping, h1, h2, h3, h4, hopt, Syspack.Windows.GetCurrentProcessE,
      Syspack.Windows.DuplicateHandleE, Syspack.Windows.CreateFileMappingE,
      Syspack.Windows.MapViewOfFileE, World.Api, hp, hd, hc, hv, NewSyscallError]

/-- C16 amended, at a concrete input: the Windows platform whose
`MapViewOfFile` fails. -/
theorem NewMapping_windows_first_error_witness :
    Windows.NewMapping Example.osMapViewFails Example.world 9 5000 10 none
      = ({ Example.world with calls := [Call.GetCurrentProcess,
            Call.DuplicateHandle 1 9 1 0 true Syspack.Windows.DUPLICATE_SAME_ACCESS]
            ++ [Call.CreateFileMapping 2 2 0 915, Call.MapViewOfFile 3 4 0 1 914] }, none,
          some (Error.SyscallError Syspack.Windows.SymbolMapViewOfFile (Error.Errno 8))) :=
  (NewMapping_windows_first_error Example.osMapViewFails Example.world 9 5000 10 none 2 4
    false false 1 2 _ _ (by decide) (by decide) rfl (by decide) rfl rfl rfl rfl).2 3 0
    (Error.Errno 8) rfl rfl

theorem toUintptr_of_lt (x : Int) (h0 : 0 ≤ x) (h1 : x < 2 ^ 64) : toUintptr x = x.toNat := by
  unfold toUintptr
  rw [Int.emod_eq_of_lt h0 h1]

theorem toUintptr_natCast (n : Nat) (h : n < 2 ^ 64) : toUintptr (n : Int) = n := by
  rw [toUintptr_of_lt _ (by omega) (by omega)]
  simp

/-- The trace of `NewMapping` on Linux once the checks have passed: one
`mmap` system call with the aligned size, the protection, the flags, the
descriptor and the outer offset. -/
theorem NewMapping_calls_linux (os : OS) (w : World) (fd : Nat) (offset : Int) (size : Nat)
    (options : Option Options) (protection flags : Nat) (canWrite canExecute : Bool)
    (hoff : 0 ≤ offset) (hsize : (size : Int) ≤ MaxInt)
    (hopt : Linux.NewMapping.options options = .ok (protection, flags, canWrite, canExecute))
    (hpage : 0 < os.pageSize) :
    (Linux.NewMapping os w fd offset size options).1.calls
      = w.calls ++ [Call.Syscall6 SYS_MMAP 0
          ((toUintptr (Int.tmod offset os.pageSize) + size) % 2 ^ 64)
          (toUintptr protection) (toUintptr flags) fd (toUintptr (Int.tdiv offset os.pageSize))] := by
  have h1 : ¬ offset < 0 := by omega
  have h2 : ¬ size > toUintptr MaxInt := by rw [size_gt_MaxInt_iff]; omega
  have h3 : ¬ os.pageSize < 0 := by omega
  have h4 : ¬ os.pageSize = 0 := by omega
  have h5 : ¬ Int.tdiv offset os.pageSize < 0 := by
    have := Int.tdiv_nonneg hoff (le_of_lt hpage)
    omega
  have hg : ¬ ((protection : Int) < 0 ∨ (flags : Int) < 0 ∨ Int.tdiv offset os.pageSize < 0) := by
    omega
  simp only [Linux.NewMapping, h1, h2, h3, h4, hopt, if_false, MmapE, Mmap, hg, World.Syscall]
  split_ifs <;> rfl

/-- C17: for an offset that is not negative, a size of at most `MaxInt` and a
page size `p` with `0 < p <= 2 ^ 63`, the aligned size that `NewMapping`
computes is `innerOffset + size` as exact integers, without wrap-around: it
is the length passed to `mmap`, and in the mapping returned the view starts
`innerOffset` bytes after the aligned address, has length `size` and so ends
exactly at the end of the aligned region. -/
theorem alignedSize_exact (os : OS) (w : World) (fd : Nat) (offset : Int) (size : Nat)
    (options : Option Options) (hoff : 0 ≤ offset) (hsize : (size : Int) ≤ MaxInt)
    (hopt : ∀ o, options = some o → ModeReadOnly ≤ o.Mode ∧ o.Mode ≤ ModeReadWritePrivate)
    (hp0 : 0 < os.pageSize) (hp1 : os.pageSize ≤ 2 ^ 63) :
    0 ≤ Int.tmod offset os.pageSize ∧
    (∃ prot flags, (Linux.NewMapping os w fd offset size options).1.calls
      = w.calls ++ [Call.Syscall6 SYS_MMAP 0 ((Int.tmod offset os.pageSize).toNat + size)
          prot flags fd (toUintptr (Int.tdiv offset os.pageSize))]) ∧
    (∀ m, (Linux.NewMapping os w fd offset size options).2.1 = some m →
      (m.alignedSize : Int) = Int.tmod offset os.pageSize + size ∧
      ∃ d, m.data = some d ∧
        d.data = (m.alignedAddress + (Int.tmod offset os.pageSize).toNat) % 2 ^ 64 ∧
        d.len = size ∧ Int.tmod offset os.pageSize + d.len = m.alignedSize) := by
  have hi0 : 0 ≤ Int.tmod offset os.pageSize := Int.tmod_nonneg _ hoff
  have hi1 : Int.tmod offset os.pageSize < os.pageSize := Int.tmod_lt_of_pos _ hp0
  have hs : (size : Int) ≤ 2 ^ 63 - 1 := by rw [MaxInt_eq] at hsize; exact hsize
  have hu : toUintptr (Int.tmod offset os.pageSize) = (Int.tmod offset os.pageSize).toNat :=
    toUintptr_of_lt _ hi0 (by omega)
  have hsum : ((Int.tmod offset os.pageSize).toNat + size) % 2 ^ 64
      = (Int.tmod offset os.pageSize).toNat + size := Nat.mod_eq_of_lt (by omega)
  obtain ⟨⟨protection, flags, canWrite, canExecute⟩, hr⟩ := options_ok_linux options hopt
  refine ⟨hi0, ⟨toUintptr protection, toUintptr flags, ?_⟩, ?_⟩
  · rw [NewMapping_calls_linux os w fd offset size options protection flags canWrite canExecute
      hoff hsize hr hp0, hu, hsum]
  · intro m hm
    obtain ⟨-, hdata, hal⟩ := NewMapping_some_linux os w fd offset size options m hm
    rw [hu] at hdata hal
    rw [hsum] at hal
    refine ⟨by rw [hal]; omega, _, hdata, rfl, ?_, ?_⟩
    · exact toInt_of_le_MaxInt size hsize
    · simp only [toInt_of_le_MaxInt size hsize, hal]
      omega

/-- C17 at a concrete input: ten bytes at offset 5000 with 4096-byte pages
give the aligned size 904 + 10 in the `mmap` call. -/
theorem alignedSize_exact_witness :
    0 ≤ Int.tmod 5000 Example.os.pageSize ∧
      ∃ prot flags, (Linux.NewMapping Example.os Example.world 3 5000 10 none).1.calls
        = Example.world.calls ++ [Call.Syscall6 SYS_MMAP 0
            ((Int.tmod 5000 Example.os.pageSize).toNat + 10) prot flags 3
            (toUintptr (Int.tdiv 5000 Example.os.pageSize))] :=
  ⟨(alignedSize_exact Example.os Example.world 3 5000 10 none (by decide) (by decide)
      (by intro o h; cases h) (by decide) (by decide)).1,
   (alignedSize_exact Example.os Example.world 3 5000 10 none (by decide) (by decide)
      (by intro o h; cases h) (by decide) (by decide)).2.1⟩

/-- What the option block decides on Linux: the protection and the flags
of the `mmap` call, and the permission bits of the mapping returned. -/
theorem NewMapping_of_options_linux (os : OS) (w : World) (fd : Nat) (offset : Int) (size : Nat)
    (options : Option Options) (protection flags : Nat) (canWrite canExecute : Bool)
    (hoff : 0 ≤ offset) (hsize : (size : Int) ≤ MaxInt) (hpage : 0 < os.pageSize)
    (hopt : Linux.NewMapping.options options = .ok (protection, flags, canWrite, canExecute))
    (hP : protection < 2 ^ 64) (hF : flags < 2 ^ 64) :
    (Linux.NewMapping os w fd offset size options).1.calls
        = w.calls ++ [Call.Syscall6 SYS_MMAP 0
            ((toUintptr (Int.tmod offset os.pageSize) + size) % 2 ^ 64) protection flags fd
            (toUintptr (Int.tdiv offset os.pageSize))] ∧
      ∀ m, (Linux.NewMapping os w fd offset size options).2.1 = some m →
        m.canWrite = canWrite ∧ m.canExecute = canExecute := by
  constructor
  · rw [NewMapping_calls_linux os w fd offset size options _ _ _ _ hoff hsize hopt hpage,
      toUintptr_natCast _ hP, toUintptr_natCast _ hF]
  · intro m hm
    obtain ⟨⟨p, f, hr⟩, -, -⟩ := NewMapping_some_linux os w fd offset size options m hm
    rw [hopt] at hr
    simp only [Except.ok.injEq, Prod.mk.injEq] at hr
    exact ⟨hr.2.2.1.symm, hr.2.2.2.symm⟩

/-- C18: on Linux, for valid options `o` (nil options count as
`ModeReadOnly`, not executable), the `mmap` call of `NewMapping` carries
`PROT_READ` with `MAP_SHARED` for `ModeReadOnly`, `PROT_READ|PROT_WRITE` with
`MAP_SHARED` for `ModeReadWrite` and `PROT_READ|PROT_WRITE` with
`MAP_PRIVATE` for `ModeReadWritePrivate`, with `PROT_EXEC` or-ed in exactly
when `Executable` is set; and the mapping returned has `CanWrite()` true
exactly when the mode is not `ModeReadOnly` and `CanExecute()` true exactly
when `Executable` is set. -/
theorem NewMapping_protection (os : OS) (w : World) (fd : Nat) (offset : Int) (size : Nat)
    (options : Option Options) (o : Options)
    (ho : options = some o ∨ (options = none ∧ o = { Mode := ModeReadOnly, Executable := false }))
    (hmode : o.Mode = ModeReadOnly ∨ o.Mode = ModeReadWrite ∨ o.Mode = ModeReadWritePrivate)
    (hoff : 0 ≤ offset) (hsize : (size : Int) ≤ MaxInt) (hpage : 0 < os.pageSize) :
    (∃ prot flags, (Linux.NewMapping os w fd offset size options).1.calls
        = w.calls ++ [Call.Syscall6 SYS_MMAP 0
            ((toUintptr (Int.tmod offset os.pageSize) + size) % 2 ^ 64) prot flags fd
            (toUintptr (Int.tdiv offset os.pageSize))] ∧
      (o.Mode = ModeReadOnly →
        prot = PROT_READ ||| (if o.Executable then PROT_EXEC else 0) ∧ flags = MAP_SHARED) ∧
      (o.Mode = ModeReadWrite →
        prot = (PROT_READ ||| PROT_WRITE) ||| (if o.Executable then PROT_EXEC else 0) ∧
        flags = MAP_SHARED) ∧
      (o.Mode = ModeReadWritePrivate →
        prot = (PROT_READ ||| PROT_WRITE) ||| (if o.Executable then PROT_EXEC else 0) ∧
        flags = MAP_PRIVATE) ∧
      (prot &&& PROT_EXEC = PROT_EXEC ↔ o.Executable = true)) ∧
    (∀ m, (Linux.NewMapping os w fd offset size options).2.1 = some m →
      (m.CanWrite = true ↔ o.Mode ≠ ModeReadOnly) ∧
      (m.CanExecute = true ↔ o.Executable = true) ∧ m.CanRead = true) := by
  obtain ⟨mode, exec⟩ := o
  have key := fun P F cw ce h hP hF =>
    NewMapping_of_options_linux os w fd offset size options P F cw ce hoff hsize hpage h hP hF
  simp only [ModeReadOnly, ModeReadWrite, ModeReadWritePrivate] at hmode
  have hopt : ∃ P F cw ce, Linux.NewMapping.options options = .ok (P, F, cw, ce) ∧
      P < 2 ^ 64 ∧ F < 2 ^ 64 ∧
      ((mode = ModeReadOnly →
          P = PROT_READ ||| (if exec then PROT_EXEC else 0) ∧ F = MAP_SHARED) ∧
        (mode = ModeReadWrite →
          P = (PROT_READ ||| PROT_WRITE) ||| (if exec then PROT_EXEC else 0) ∧ F = MAP_SHARED) ∧
        (mode = ModeReadWritePrivate →
          P = (PROT_READ ||| PROT_WRITE) ||| (if exec then PROT_EXEC else 0) ∧ F = MAP_PRIVATE) ∧
        (P &&& PROT_EXEC = PROT_EXEC ↔ exec = true)) ∧
      (cw = true ↔ mode ≠ ModeReadOnly) ∧ (ce = true ↔ exec = true) := by
    rcases ho with rfl | ⟨rfl, ho⟩
    · rcases hmode with rfl | rfl | rfl <;> cases exec <;>
        exact ⟨_, _, _, _, rfl, by decide, by decide, by decide, by decide, by decide⟩
    · simp only [ModeReadOnly, Options.mk.injEq] at ho
      obtain ⟨rfl, rfl⟩ := ho
      exact ⟨_, _, _, _, rfl, by decide, by decide, by decide, by decide, by decide⟩
  obtain ⟨P, F, cw, ce, hr, hP, hF, htable, hcw, hce⟩ := hopt
  obtain ⟨hcalls, hm⟩ := key P F cw ce hr hP hF
  refine ⟨⟨P, F, hcalls, htable⟩, ?_⟩
  intro m hnew
  obtain ⟨h1, h2⟩ := hm m hnew
  refine ⟨?_, ?_, rfl⟩
  · show m.canWrite = true ↔ _
    rw [h1]
    exact hcw
  · show m.canExecute = true ↔ _
    rw [h2]
    exact hce

/-- C18 at a concrete input: `ModeReadWritePrivate`, executable. -/
theorem NewMapping_protection_witness :
    ∃ prot flags, (Linux.NewMapping Example.os Example.world 3 5000 10
          (some { Mode := ModeReadWritePrivate, Executable := true })).1.calls
        = Example.world.calls ++ [Call.Syscall6 SYS_MMAP 0
            ((toUintptr (Int.tmod 5000 Example.os.pageSize) + 10) % 2 ^ 64) prot flags 3
            (toUintptr (Int.tdiv 5000 Example.os.pageSize))] ∧
      prot = (PROT_READ ||| PROT_WRITE) ||| PROT_EXEC ∧ flags = MAP_PRIVATE := by
  obtain ⟨prot, flags, h1, -, -, h4, -⟩ :=
    (NewMapping_protection Example.os Example.world 3 5000 10
      (some { Mode := ModeReadWritePrivate, Executable := true })
      { Mode := ModeReadWritePrivate, Executable := true } (Or.inl rfl) (by decide) (by decide)
      (by decide) (by decide)).1
  exact ⟨prot, flags, h1, h4 rfl⟩

/-- C19: on an open mapping on which every primitive succeeds, `Close`
returns no error and leaves the mapping closed; the primitives it invokes
are, in this order, the flush (only when the mapping is writable, and then
once: `msync` on Linux, `FlushViewOfFile` then `FlushFileBuffers` on
Windows) and the release (`munmap` on Linux; `UnmapViewOfFile` and the two
`CloseHandle` on Windows).  When the flush fails on a writable mapping,
`Close` returns what `Sync` returned and invokes nothing after it, so no
release primitive is invoked. -/
theorem Close_trace (os : OS) (w : World) :
    (∀ m : Mapping, m.data ≠ none → (∀ tr c, (os.Syscall tr c).2 = 0) →
      (Linux.Mapping.Close os w m).2.2 = none ∧
      (Linux.Mapping.Close os w m).2.1.data = none ∧
      (Linux.Mapping.Close os w m).1.calls
        = w.calls
          ++ (if m.canWrite then [Call.Syscall SYS_MSYNC m.alignedAddress m.alignedSize MS_SYNC]
              else [])
          ++ [Call.Syscall SYS_MUNMAP m.alignedAddress m.alignedSize 0]) ∧
    (∀ m : Mapping, m.data ≠ none → m.canWrite = true →
      (Linux.Mapping.Sync os w m).2 ≠ none →
      Linux.Mapping.Close os w m
        = ((Linux.Mapping.Sync os w m).1, m, (Linux.Mapping.Sync os w m).2) ∧
      (Linux.Mapping.Sync os w m).1.calls
        = w.calls ++ [Call.Syscall SYS_MSYNC m.alignedAddress m.alignedSize MS_SYNC]) ∧
    (∀ m : Windows.Mapping, m.data ≠ none → (∀ tr c, (os.Api tr c).2 = none) →
      (Windows.Mapping.Close os w m).2.2 = none ∧
      (Windows.Mapping.Close os w m).2.1.data = none ∧
      (Windows.Mapping.Close os w m).1.calls
        = w.calls
          ++ (if m.canWrite then [Call.FlushViewOfFile m.alignedAddress m.alignedSize,
                Call.FlushFileBuffers m.hFile]
              else [])
          ++ [Call.UnmapViewOfFile m.alignedAddress, Call.CloseHandle m.hMapping,
              Call.CloseHandle m.hFile]) ∧
    (∀ m : Windows.Mapping, m.data ≠ none → m.canWrite = true →
      (Windows.Mapping.Sync os w m).2 ≠ none →
      Windows.Mapping.Close os w m
        = ((Windows.Mapping.Sync os w m).1, m, (Windows.Mapping.Sync os w m).2) ∧
      ((Windows.Mapping.Sync os w m).1.calls
          = w.calls ++ [Call.FlushViewOfFile m.alignedAddress m.alignedSize] ∨
        (Windows.Mapping.Sync os w m).1.calls
          = w.calls ++ [Call.FlushViewOfFile m.alignedAddress m.alignedSize,
              Call.FlushFileBuffers m.hFile])) := by
  refine ⟨?_, ?_, ?_, ?_⟩
  · intro m hopen hok
    cases hd : m.data with
    | none => exact absurd hd hopen
    | some d =>
      by_cases hw : m.canWrite = true
      · simp [Linux.Mapping.Close, Linux.Mapping.Sync, hd, hw, MsyncE_eq, MunmapE_eq, hok]
      · simp [Linux.Mapping.Close, hd, hw, MunmapE_eq, hok]
  · intro m hopen hw herr
    cases hd : m.data with
    | none => exact absurd hd hopen
    | some d =>
      constructor
      · simp [Linux.Mapping.Close, hd, hw, herr]
      · rw [Sync_writable_linux os w m d hd hw, MsyncE_eq]
  · intro m hopen hok
    cases hd : m.data with
    | none => exact absurd hd hopen
    | some d =>
      by_cases hw : m.canWrite = true
      · simp [Windows.Mapping.Close, Windows.Mapping.Sync, hd, hw,
          Syspack.Windows.FlushViewOfFileE, Syspack.Windows.FlushFileBuffersE,
          Syspack.Windows.UnmapViewOfFileE, Syspack.Windows.CloseHandle, World.Api, hok,
          NewSyscallError]
      · simp [Windows.Mapping.Close, hd, hw, Syspack.Windows.UnmapViewOfFileE,
          Syspack.Windows.CloseHandle, World.Api, hok, NewSyscallError]
  · intro m hopen hw herr
    cases hd : m.data with
    | none => exact absurd hd hopen
    | some d =>
      constructor
      · simp [Windows.Mapping.Close, hd, hw, herr]
      · by_cases h1 : (Syspack.Windows.FlushViewOfFileE os w m.alignedAddress m.alignedSize).2
            = none
        · right
          simp [Windows.Mapping.Sync, hd, hw, h1]
          simp only [Syspack.Windows.FlushViewOfFileE, Syspack.Windows.FlushFileBuffersE,
            World.Api, List.append_assoc, List.singleton_append]
          split_ifs <;> rfl
        · left
          simp [Windows.Mapping.Sync, hd, hw, h1]
          simp [Syspack.Windows.FlushViewOfFileE, World.Api]

/-- C19 at concrete inputs: closing the writable example mappings on the
platform on which every primitive succeeds. -/
theorem Close_trace_witness :
    (Linux.Mapping.Close Example.os Example.world Example.writable).1.calls
        = Example.world.calls
          ++ (if Example.writable.canWrite
              then [Call.Syscall SYS_MSYNC Example.writable.alignedAddress
                Example.writable.alignedSize MS_SYNC]
              else [])
          ++ [Call.Syscall SYS_MUNMAP Example.writable.alignedAddress
                Example.writable.alignedSize 0] ∧
      (Windows.Mapping.Close Example.os Example.world Example.windows).2.2 = none :=
  ⟨((Close_trace Example.os Example.world).1 Example.writable (by decide)
      (by intro tr c; rfl)).2.2,
   ((Close_trace Example.os Example.world).2.2.1 Example.windows (by decide)
      (by intro tr c; rfl)).1⟩

/-- The accessors that hand the receiver back return the Go results of the
accessors of `mmap.go`. -/
theorem Method_results (w : World) (m : Mapping) (low high offset : Int) (b : Byte)
    (buffer : List Byte) :
    (Method.Direct m low high).2 = m.Direct low high ∧
      (Method.ReadByteAt w m offset).2 = m.ReadByteAt w offset ∧
      ((Method.WriteByteAt w m b offset).1, (Method.WriteByteAt w m b offset).2.2)
        = m.WriteByteAt w b offset ∧
      (Method.ReadAt w m buffer offset).2 = m.ReadAt w buffer offset ∧
      ((Method.WriteAt w m buffer offset).1, (Method.WriteAt w m buffer offset).2.2)
        = m.WriteAt w buffer offset := by
  refine ⟨?_, ?_, ?_, ?_, ?_⟩
  · unfold Method.Direct Mapping.Direct
    split
    · rfl
    · simp only []
      split_ifs <;> rfl
  · unfold Method.ReadByteAt Mapping.ReadByteAt
    split
    · rfl
    · split_ifs <;> rfl
  · unfold Method.WriteByteAt Mapping.WriteByteAt
    split
    · rfl
    · split_ifs <;> rfl
  · unfold Method.ReadAt Mapping.ReadAt
    split
    · rfl
    · simp only []
      split_ifs <;> rfl
  · unfold Method.WriteAt Mapping.WriteAt
    split
    · rfl
    · simp only []
      split_ifs <;> rfl

/-- On Linux `Sync` in the form that hands the receiver back returns the
world and the error of `Sync`, and the receiver as it was. -/
theorem Method_Sync_eq (os : OS) (w : World) (m : Mapping) :
    Linux.Method.Sync os w m
      = ((Linux.Mapping.Sync os w m).1, m, (Linux.Mapping.Sync os w m).2) := by
  unfold Linux.Method.Sync Linux.Mapping.Sync
  split
  · rfl
  · split_ifs <;> rfl

/-- On Linux `Lock`, `Unlock` and `Close` in the form that hands the receiver
back return what `Lock`, `Unlock` and `Close` return. -/
theorem Method_results_linux (os : OS) (w : World) (m : Mapping) :
    ((Linux.Method.Lock os w m).1, (Linux.Method.Lock os w m).2.2) = Linux.Mapping.Lock os w m ∧
      ((Linux.Method.Unlock os w m).1, (Linux.Method.Unlock os w m).2.2)
        = Linux.Mapping.Unlock os w m ∧
      Linux.Method.Close os w m = Linux.Mapping.Close os w m := by
  refine ⟨?_, ?_, ?_⟩
  · unfold Linux.Method.Lock Linux.Mapping.Lock
    split <;> rfl
  · unfold Linux.Method.Unlock Linux.Mapping.Unlock
    split <;> rfl
  · unfold Linux.Method.Close Linux.Mapping.Close
    split
    · rfl
    · by_cases hw : m.canWrite = true
      · simp only [hw, if_true, Method_Sync_eq]
      · have hw2 : m.canWrite = false := by simpa using hw
        simp [hw2]

/-- C20: every method call on a Linux mapping, whether it succeeds or fails,
leaves `CanWrite()` and `CanExecute()` as they were; `CanRead()` is true;
and every call other than a `Close` that returns no error leaves `Len()` as
it was. -/
theorem flags_immutable (os : OS) (w : World) (m : Mapping) (op : Linux.Op) :
    (Linux.Mapping.run os w m op).2.1.CanWrite = m.CanWrite ∧
      (Linux.Mapping.run os w m op).2.1.CanExecute = m.CanExecute ∧
      (Linux.Mapping.run os w m op).2.1.CanRead = true ∧ m.CanRead = true ∧
      ((op ≠ Linux.Op.Close ∨ (Linux.Mapping.run os w m op).2.2 ≠ none) →
        (Linux.Mapping.run os w m op).2.1.Len = m.Len) := by
  cases op with
  | Direct low high =>
    simp only [Linux.Mapping.run, Method.Direct]
    split
    · exact ⟨rfl, rfl, rfl, rfl, fun _ => rfl⟩
    · split_ifs <;> exact ⟨rfl, rfl, rfl, rfl, fun _ => rfl⟩
  | ReadByteAt offset =>
    simp only [Linux.Mapping.run, Method.ReadByteAt]
    split
    · exact ⟨rfl, rfl, rfl, rfl, fun _ => rfl⟩
    · split_ifs <;> exact ⟨rfl, rfl, rfl, rfl, fun _ => rfl⟩
  | WriteByteAt b offset =>
    simp only [Linux.Mapping.run, Method.WriteByteAt]
    split
    · exact ⟨rfl, rfl, rfl, rfl, fun _ => rfl⟩
    · split_ifs <;> exact ⟨rfl, rfl, rfl, rfl, fun _ => rfl⟩
  | ReadAt buffer offset =>
    simp only [Linux.Mapping.run, Method.ReadAt]
    split
    · exact ⟨rfl, rfl, rfl, rfl, fun _ => rfl⟩
    · split_ifs <;> exact ⟨rfl, rfl, rfl, rfl, fun _ => rfl⟩
  | WriteAt buffer offset =>
    simp only [Linux.Mapping.run, Method.WriteAt]
    split
    · exact ⟨rfl, rfl, rfl, rfl, fun _ => rfl⟩
    · split_ifs <;> exact ⟨rfl, rfl, rfl, rfl, fun _ => rfl⟩
  | Lock =>
    simp only [Linux.Mapping.run, Linux.Method.Lock]
    split <;> exact ⟨rfl, rfl, rfl, rfl, fun _ => rfl⟩
  | Unlock =>
    simp only [Linux.Mapping.run, Linux.Method.Unlock]
    split <;> exact ⟨rfl, rfl, rfl, rfl, fun _ => rfl⟩
  | Sync =>
    simp only [Linux.Mapping.run, Linux.Method.Sync]
    split
    · exact ⟨rfl, rfl, rfl, rfl, fun _ => rfl⟩
    · split_ifs <;> exact ⟨rfl, rfl, rfl, rfl, fun _ => rfl⟩
  | Close =>
    simp only [Linux.Mapping.run, (Method_results_linux os w m).2.2]
    cases hd : m.data with
    | none => simp [Linux.Mapping.Close, hd, Mapping.CanRead]
    | some d =>
      refine ⟨?_, ?_, rfl, rfl, ?_⟩
      · rcases Close_cases_linux os w m d hd with
          ⟨-, -, ⟨-, e⟩ | ⟨-, -, e⟩ | ⟨-, -, e⟩⟩ | ⟨-, ⟨-, e⟩ | ⟨-, e⟩⟩ <;>
          rw [e] <;> rfl
      · rcases Close_cases_linux os w m d hd with
          ⟨-, -, ⟨-, e⟩ | ⟨-, -, e⟩ | ⟨-, -, e⟩⟩ | ⟨-, ⟨-, e⟩ | ⟨-, e⟩⟩ <;>
          rw [e] <;> rfl
      · intro h
        have herr : (Linux.Mapping.Close os w m).2.2 ≠ none := by
          rcases h with h | h
          · exact absurd rfl h
          · exact h
        rw [Close_error_linux os w m herr]

/-- C20 at a concrete input: a `Close` that fails in the flush leaves the
length of the writable example mapping at four. -/
theorem flags_immutable_witness :
    (Linux.Mapping.run Example.osFails Example.world Example.writable Linux.Op.Close).2.2 ≠ none ∧
      (Linux.Mapping.run Example.osFails Example.world Example.writable Linux.Op.Close).2.1.Len
        = Example.writable.Len :=
  ⟨by decide,
   (flags_immutable Example.osFails Example.world Example.writable Linux.Op.Close).2.2.2.2
      (Or.inr (by decide))⟩

end Mmap

/-! ### syspack.go -/

/-- C21: `Errno` never returns the nil error; it returns `syscall.EINVAL`
when its argument is nil or is the error number 0, and returns its argument
unchanged in every other case. -/
theorem Errno_never_nil (os : OS) (err : Option Error) :
    Errno os err ≠ none ∧
      ((err = none ∨ err = some (Error.Errno 0)) → Errno os err = some (Error.Errno os.EINVAL)) ∧
      ((err ≠ none ∧ err ≠ some (Error.Errno 0)) → Errno os err = err) := by
  cases err with
  | none => simp [Errno]
  | some e =>
    cases e with
    | Errno errno =>
      by_cases h : errno = 0
      · simp [Errno, h]
      · simp [Errno, h]
    | _ => simp [Errno]

/-- C21 at concrete inputs: the nil error and the error number 0 give
`EINVAL` (22 on the example platform), the error number 12 is returned as it
is. -/
theorem Errno_never_nil_witness :
    Errno Example.os none = some (Error.Errno Example.os.EINVAL) ∧
      Errno Example.os (some (Error.Errno 0)) = some (Error.Errno Example.os.EINVAL) ∧
      Errno Example.os (some (Error.Errno 12)) = some (Error.Errno 12) :=
  ⟨(Errno_never_nil Example.os none).2.1 (Or.inl rfl),
   (Errno_never_nil Example.os (some (Error.Errno 0))).2.1 (Or.inr rfl),
   (Errno_never_nil Example.os (some (Error.Errno 12))).2.2 ⟨by decide, by decide⟩⟩

/-- C22: for every 64-bit value `v`, `HighLow v` is the pair of `v / 2 ^ 32`
and `v mod 2 ^ 32`; both are below `2 ^ 32`, and the high part times `2 ^ 32`
plus the low part is `v` again. -/
theorem HighLow_lossless (v : Nat) (hv : v < 2 ^ 64) :
    (HighLow v).1 = v / 2 ^ 32 ∧ (HighLow v).2 = v % 2 ^ 32 ∧
      (HighLow v).1 < 2 ^ 32 ∧ (HighLow v).2 < 2 ^ 32 ∧
      (HighLow v).1 * 2 ^ 32 + (HighLow v).2 = v := by
  simp only [HighLow, MaxDword, Nat.shiftRight_eq_div_pow, Nat.and_pow_two_sub_one_eq_mod]
  omega

/-- C22 at a concrete input: the value `5 * 2 ^ 32 + 7`. -/
theorem HighLow_lossless_witness :
    (HighLow (5 * 2 ^ 32 + 7)).1 = (5 * 2 ^ 32 + 7) / 2 ^ 32 ∧
      (HighLow (5 * 2 ^ 32 + 7)).2 = (5 * 2 ^ 32 + 7) % 2 ^ 32 ∧
      (HighLow (5 * 2 ^ 32 + 7)).1 < 2 ^ 32 ∧ (HighLow (5 * 2 ^ 32 + 7)).2 < 2 ^ 32 ∧
      (HighLow (5 * 2 ^ 32 + 7)).1 * 2 ^ 32 + (HighLow (5 * 2 ^ 32 + 7)).2 = 5 * 2 ^ 32 + 7 :=
  HighLow_lossless (5 * 2 ^ 32 + 7) (by decide)

end Syspack
